import Mathlib

/-!
Shallow embedding of the falcon-hunter chess variant engine (`chess.py`:
classes `ChessPiece`, `Pawn`, `Knight`, `Bishop`, `Rook`, `Queen`, `King`,
`Falcon`, `Hunter`, `Board`, `Player`, `ChessVar`).

Modelling conventions:
* A square string such as `'e2'` is represented by the pair of the column
  character's code point and the integer value of the row digit, i.e.
  `(101, 2) : Int × Int`.  This covers every two-character string whose
  second character is a decimal digit; `chess.py` parses squares exactly
  this way (`square[0]`, `int(square[1])`).
* The board (`Board._layout`, a list of dicts keyed by the 64 square
  labels `'a1'..'h8'`) is represented by a function `Square → Option Piece`
  read through `Board.get_current_piece_on_square`, which yields `none`
  for any key outside the 64 board keys, exactly as the Python lookup
  loop falls through for an unknown key.  The two update operations guard
  on key existence (`onBoard`), mirroring the Python loops that assign
  only to existing dict keys.
* Python methods that can fall off the end (returning `None` rather than
  a `bool`) are modelled with `Option Bool`; Python truthiness of such
  a value is `truthy`, and `make_move`'s `is False` test is the exact
  comparison with `some false`.
* `Pawn.move_legal` mutates `self._first_move`; it is modelled as
  returning the pair (result, new value of the flag), and the caller
  stores the updated piece back on its square, as the shared Python
  object reference does.
-/

inductive Color where
  | white
  | black
deriving DecidableEq

inductive PieceKind where
  | pawn
  | knight
  | bishop
  | rook
  | queen
  | king
  | falcon
  | hunter
deriving DecidableEq

/-- A chess piece: the class of the Python object, its `_color`, and the
`_first_move` attribute (present on `Pawn` objects, initialized to `True`;
carried—but never read—for the other kinds). -/
structure Piece where
  kind : PieceKind
  color : Color
  first_move : Bool
deriving DecidableEq

inductive GState where
  | unfinished
  | whiteWon
  | blackWon
deriving DecidableEq

/-- A square string `'c' + 'r'`: code point of the column character and
integer value of the row digit. -/
abbrev Square := Int × Int

/-- Labels per `ChessPiece.__init__`: lowercase base label, uppercased for
white pieces (`Pawn` 'p', `Knight` 'k', `Bishop` 'b', `Rook` 'r',
`Queen` 'q', `King` 'g', `Falcon` 'f', `Hunter` 'h'). -/
def labelOf (p : Piece) : Char :=
  match p.color, p.kind with
  | Color.white, PieceKind.pawn => 'P'
  | Color.white, PieceKind.knight => 'K'
  | Color.white, PieceKind.bishop => 'B'
  | Color.white, PieceKind.rook => 'R'
  | Color.white, PieceKind.queen => 'Q'
  | Color.white, PieceKind.king => 'G'
  | Color.white, PieceKind.falcon => 'F'
  | Color.white, PieceKind.hunter => 'H'
  | Color.black, PieceKind.pawn => 'p'
  | Color.black, PieceKind.knight => 'k'
  | Color.black, PieceKind.bishop => 'b'
  | Color.black, PieceKind.rook => 'r'
  | Color.black, PieceKind.queen => 'q'
  | Color.black, PieceKind.king => 'g'
  | Color.black, PieceKind.falcon => 'f'
  | Color.black, PieceKind.hunter => 'h'

/-- The result of `piece.get_label().lower()`. -/
def labelLowerOf (p : Piece) : Char :=
  match p.kind with
  | PieceKind.pawn => 'p'
  | PieceKind.knight => 'k'
  | PieceKind.bishop => 'b'
  | PieceKind.rook => 'r'
  | PieceKind.queen => 'q'
  | PieceKind.king => 'g'
  | PieceKind.falcon => 'f'
  | PieceKind.hunter => 'h'

/-- Python truthiness of a value that is `True`, `False`, or `None`. -/
def truthy (o : Option Bool) : Bool := o.getD false

/-- Whether a square pair is one of the 64 dict keys `'a1'..'h8'` of
`Board._layout`. -/
def onBoard (sq : Square) : Bool :=
  decide (97 ≤ sq.1 ∧ sq.1 ≤ 104 ∧ 1 ≤ sq.2 ∧ sq.2 ≤ 8)

/-- The occupancy view of a board: `Square → Option Piece`.  The piece
methods read the board only through `Board.get_current_piece_on_square`,
so they take this function as their board argument. -/
abbrev Occ := Square → Option Piece

/-- Loop of the "Top right direction" block of
`ChessPiece.diagonal_move_requires_jump`
(`while current_row <= 8 or current_column <= ord('h')`), with an explicit
iteration counter equal to the exact number of remaining loop entries of
the Python loop (the loop condition itself is re-checked each step, so the
counter only drives structural recursion). -/
def diag_walk_ur_go (g : Square) (occ : Occ) : Nat → Int → Int → Option Bool
  | 0, _, _ => none
  | n + 1, c, r =>
    if r ≤ 8 ∨ c ≤ 104 then
      if (c, r) = g then some false
      else if (occ (c, r)).isSome then some true
      else diag_walk_ur_go g occ n (c + 1) (r + 1)
    else none

/-- Entry point of the "Top right direction" loop. -/
def diag_walk_ur (g : Square) (occ : Occ) (c r : Int) : Option Bool :=
  diag_walk_ur_go g occ (max (9 - r).toNat (105 - c).toNat) c r

/-- Loop of the "Bottom right direction" block of
`ChessPiece.diagonal_move_requires_jump`
(`while current_row >= 1 or current_column <= ord('h')`). -/
def diag_walk_dr_go (g : Square) (occ : Occ) : Nat → Int → Int → Option Bool
  | 0, _, _ => none
  | n + 1, c, r =>
    if 1 ≤ r ∨ c ≤ 104 then
      if (c, r) = g then some false
      else if (occ (c, r)).isSome then some true
      else diag_walk_dr_go g occ n (c + 1) (r - 1)
    else none

/-- Entry point of the "Bottom right direction" loop. -/
def diag_walk_dr (g : Square) (occ : Occ) (c r : Int) : Option Bool :=
  diag_walk_dr_go g occ (max r.toNat (105 - c).toNat) c r

/-- Loop of the "Top left direction" block of
`ChessPiece.diagonal_move_requires_jump`
(`while current_row <= 8 or current_column >= ord('a')`). -/
def diag_walk_ul_go (g : Square) (occ : Occ) : Nat → Int → Int → Option Bool
  | 0, _, _ => none
  | n + 1, c, r =>
    if r ≤ 8 ∨ 97 ≤ c then
      if (c, r) = g then some false
      else if (occ (c, r)).isSome then some true
      else diag_walk_ul_go g occ n (c - 1) (r + 1)
    else none

/-- Entry point of the "Top left direction" loop. -/
def diag_walk_ul (g : Square) (occ : Occ) (c r : Int) : Option Bool :=
  diag_walk_ul_go g occ (max (9 - r).toNat (c - 96).toNat) c r

/-- Loop of the "Bottom left direction" block of
`ChessPiece.diagonal_move_requires_jump`
(`while current_row >= 1 or current_column >= ord('a')`). -/
def diag_walk_dl_go (g : Square) (occ : Occ) : Nat → Int → Int → Option Bool
  | 0, _, _ => none
  | n + 1, c, r =>
    if 1 ≤ r ∨ 97 ≤ c then
      if (c, r) = g then some false
      else if (occ (c, r)).isSome then some true
      else diag_walk_dl_go g occ n (c - 1) (r - 1)
    else none

/-- Entry point of the "Bottom left direction" loop. -/
def diag_walk_dl (g : Square) (occ : Occ) (c r : Int) : Option Bool :=
  diag_walk_dl_go g occ (max r.toNat (c - 96).toNat) c r

/-- `ChessPiece.diagonal_move_requires_jump(start, goal, board)`.  The four
direction blocks have mutually exclusive guards; when none fires, or when
an entered loop terminates without hitting goal or an occupant, the Python
function falls off the end and returns `None`. -/
def diagonal_move_requires_jump (s g : Square) (occ : Occ) : Option Bool :=
  if g.2 > s.2 ∧ g.1 > s.1 then diag_walk_ur g occ (s.1 + 1) (s.2 + 1)
  else if g.2 < s.2 ∧ g.1 > s.1 then diag_walk_dr g occ (s.1 + 1) (s.2 - 1)
  else if g.2 > s.2 ∧ g.1 < s.1 then diag_walk_ul g occ (s.1 - 1) (s.2 + 1)
  else if g.2 < s.2 ∧ g.1 < s.1 then diag_walk_dl g occ (s.1 - 1) (s.2 - 1)
  else none

/-- The "Up direction" loop of `ChessPiece.straight_move_requires_jump`
(`while current_row <= 8`), walking column `c`, with an iteration counter
equal to the exact number of remaining loop entries. -/
def straight_walk_up_go (c : Int) (g : Square) (occ : Occ) : Nat → Int → Option Bool
  | 0, _ => none
  | n + 1, r =>
    if r ≤ 8 then
      if (c, r) = g then some false
      else if (occ (c, r)).isSome then some true
      else straight_walk_up_go c g occ n (r + 1)
    else none

/-- Entry point of the "Up direction" loop. -/
def straight_walk_up (c : Int) (g : Square) (occ : Occ) (r : Int) : Option Bool :=
  straight_walk_up_go c g occ (9 - r).toNat r

/-- The "Down direction" loop of `ChessPiece.straight_move_requires_jump`
(`while current_row >= 1`). -/
def straight_walk_down_go (c : Int) (g : Square) (occ : Occ) : Nat → Int → Option Bool
  | 0, _ => none
  | n + 1, r =>
    if 1 ≤ r then
      if (c, r) = g then some false
      else if (occ (c, r)).isSome then some true
      else straight_walk_down_go c g occ n (r - 1)
    else none

/-- Entry point of the "Down direction" loop. -/
def straight_walk_down (c : Int) (g : Square) (occ : Occ) (r : Int) : Option Bool :=
  straight_walk_down_go c g occ r.toNat r

/-- The "Left direction" loop of `ChessPiece.straight_move_requires_jump`
(`while current_column >= ord('a')`), walking row `r`. -/
def straight_walk_left_go (r : Int) (g : Square) (occ : Occ) : Nat → Int → Option Bool
  | 0, _ => none
  | n + 1, c =>
    if 97 ≤ c then
      if (c, r) = g then some false
      else if (occ (c, r)).isSome then some true
      else straight_walk_left_go r g occ n (c - 1)
    else none

/-- Entry point of the "Left direction" loop. -/
def straight_walk_left (r : Int) (g : Square) (occ : Occ) (c : Int) : Option Bool :=
  straight_walk_left_go r g occ (c - 96).toNat c

/-- The "Right direction" loop of `ChessPiece.straight_move_requires_jump`
(`while current_column <= ord('h')`). -/
def straight_walk_right_go (r : Int) (g : Square) (occ : Occ) : Nat → Int → Option Bool
  | 0, _ => none
  | n + 1, c =>
    if c ≤ 104 then
      if (c, r) = g then some false
      else if (occ (c, r)).isSome then some true
      else straight_walk_right_go r g occ n (c + 1)
    else none

/-- Entry point of the "Right direction" loop. -/
def straight_walk_right (r : Int) (g : Square) (occ : Occ) (c : Int) : Option Bool :=
  straight_walk_right_go r g occ (105 - c).toNat c

/-- `ChessPiece.straight_move_requires_jump(start, goal, board)`.  The four
direction blocks run in sequence; a block whose loop terminates without
returning falls through to the next block, and the function returns `None`
if no block returns. -/
def straight_move_requires_jump (s g : Square) (occ : Occ) : Option Bool :=
  match (if g.2 > s.2 then straight_walk_up s.1 g occ (s.2 + 1) else none) with
  | some b => some b
  | none =>
    match (if g.2 < s.2 then straight_walk_down s.1 g occ (s.2 - 1) else none) with
    | some b => some b
    | none =>
      match (if g.1 < s.1 then straight_walk_left s.2 g occ (s.1 - 1) else none) with
      | some b => some b
      | none =>
        if g.1 > s.1 then straight_walk_right s.2 g occ (s.1 + 1) else none

/-- `Pawn.move_legal(start, goal, board)`.  Returns the pair of the Python
return value and the value of `self._first_move` after the call (the
method sets the flag to `False` just before returning `True`). -/
def Pawn.move_legal (p : Piece) (s g : Square) (occ : Occ) : Bool × Bool :=
  if p.first_move = true ∧ (g.2 - s.2).natAbs > 2 then (false, p.first_move)
  else if p.first_move = true ∧ g.1 = s.1 ∧
      truthy (straight_move_requires_jump s g occ) then (false, p.first_move)
  else if (p.color = Color.white ∧ g.2 < s.2) ∨
      (p.color = Color.black ∧ g.2 > s.2) then (false, p.first_move)
  else if g.2 = s.2 then (false, p.first_move)
  else if p.first_move = false ∧ g.1 = s.1 ∧ (g.2 - s.2).natAbs > 1 then
    (false, p.first_move)
  else if s.1 = g.1 ∧ (occ g).isSome then (false, p.first_move)
  else if (s.1 - g.1).natAbs > 1 then (false, p.first_move)
  else if (s.1 - g.1).natAbs = 1 ∧ (occ g).isNone then (false, p.first_move)
  else (true, false)

/-- `Knight.move_legal(start, goal)`. -/
def Knight.move_legal (s g : Square) : Bool :=
  if (g.1 - s.1).natAbs = 1 ∧ (g.2 - s.2).natAbs = 2 then true
  else if (g.1 - s.1).natAbs = 2 ∧ (g.2 - s.2).natAbs = 1 then true
  else false

/-- `Bishop.move_legal(start, goal, board)`. -/
def Bishop.move_legal (s g : Square) (occ : Occ) : Bool :=
  if (g.1 - s.1).natAbs ≠ (g.2 - s.2).natAbs then false
  else if truthy (diagonal_move_requires_jump s g occ) then false
  else true

/-- `Rook.move_legal(start, goal, board)`. -/
def Rook.move_legal (s g : Square) (occ : Occ) : Bool :=
  if g.1 ≠ s.1 ∧ g.2 ≠ s.2 then false
  else if truthy (straight_move_requires_jump s g occ) then false
  else true

/-- `Queen.move_legal(start, goal, board)`.  The final `if/else` pair is
attached to the straight-move branch only: a straight move that requires
no jump falls off the end of the method, so the Python function returns
`None` there, not `True`. -/
def Queen.move_legal (s g : Square) (occ : Occ) : Option Bool :=
  if (g.1 - s.1).natAbs ≠ (g.2 - s.2).natAbs ∧ (g.1 ≠ s.1 ∧ g.2 ≠ s.2) then
    some false
  else if (g.1 - s.1).natAbs = (g.2 - s.2).natAbs ∧
      truthy (diagonal_move_requires_jump s g occ) then some false
  else if g.1 = s.1 ∨ g.2 = s.2 then
    (if truthy (straight_move_requires_jump s g occ) then some false else none)
  else some true

/-- `King.move_legal(start, goal)`. -/
def King.move_legal (s g : Square) : Bool :=
  if (g.1 - s.1).natAbs > 1 ∨ (g.2 - s.2).natAbs > 1 then false
  else true

/-- `Falcon.move_legal(start, goal, board)` (forward like a bishop,
backward like a rook; `self._color` decides which way is forward). -/
def Falcon.move_legal (c : Color) (s g : Square) (occ : Occ) : Bool :=
  if g.2 = s.2 then false
  else
    match c with
    | Color.white =>
      if g.2 < s.2 ∧ g.1 ≠ s.1 then false
      else if g.2 > s.2 ∧ (g.1 - s.1).natAbs ≠ (g.2 - s.2).natAbs then false
      else if g.2 < s.2 then
        (if truthy (straight_move_requires_jump s g occ) then false else true)
      else
        (if truthy (diagonal_move_requires_jump s g occ) then false else true)
    | Color.black =>
      if g.2 > s.2 ∧ g.1 ≠ s.1 then false
      else if g.2 < s.2 ∧ (g.1 - s.1).natAbs ≠ (g.2 - s.2).natAbs then false
      else if g.2 > s.2 then
        (if truthy (straight_move_requires_jump s g occ) then false else true)
      else
        (if truthy (diagonal_move_requires_jump s g occ) then false else true)

/-- `Hunter.move_legal(start, goal, board)` (forward like a rook, backward
like a bishop). -/
def Hunter.move_legal (c : Color) (s g : Square) (occ : Occ) : Bool :=
  if g.2 = s.2 then false
  else
    match c with
    | Color.white =>
      if g.2 > s.2 ∧ g.1 ≠ s.1 then false
      else if g.2 < s.2 ∧ (g.1 - s.1).natAbs ≠ (g.2 - s.2).natAbs then false
      else if g.2 > s.2 then
        (if truthy (straight_move_requires_jump s g occ) then false else true)
      else
        (if truthy (diagonal_move_requires_jump s g occ) then false else true)
    | Color.black =>
      if g.2 < s.2 ∧ g.1 ≠ s.1 then false
      else if g.2 > s.2 ∧ (g.1 - s.1).natAbs ≠ (g.2 - s.2).natAbs then false
      else if g.2 < s.2 then
        (if truthy (straight_move_requires_jump s g occ) then false else true)
      else
        (if truthy (diagonal_move_requires_jump s g occ) then false else true)

/-- Dynamic dispatch of `piece_on_start_square.move_legal(...)` in
`ChessVar.make_move` (the label test `get_label().lower() in ['k', 'g']`
selects exactly the Knight and King two-argument overloads).  Returns the
Python return value (`Option Bool`, since `Queen.move_legal` can return
`None`) together with the piece object after the call, whose
`_first_move` attribute `Pawn.move_legal` may have updated. -/
def piece_move_legal (p : Piece) (s g : Square) (occ : Occ) : Option Bool × Piece :=
  match p.kind with
  | PieceKind.pawn =>
    let r := Pawn.move_legal p s g occ
    (some r.1, { p with first_move := r.2 })
  | PieceKind.knight => (some (Knight.move_legal s g), p)
  | PieceKind.bishop => (some (Bishop.move_legal s g occ), p)
  | PieceKind.rook => (some (Rook.move_legal s g occ), p)
  | PieceKind.queen => (Queen.move_legal s g occ, p)
  | PieceKind.king => (some (King.move_legal s g), p)
  | PieceKind.falcon => (some (Falcon.move_legal p.color s g occ), p)
  | PieceKind.hunter => (some (Hunter.move_legal p.color s g occ), p)

/-- `Board.get_current_piece_on_square(square)`: dict lookup over the 64
keys, `None` for a key that is not on the board. -/
def Board.get_current_piece_on_square (b : Square → Option Piece) (sq : Square) :
    Option Piece :=
  if onBoard sq then b sq else none

/-- `Board.update_move(start, goal, piece)`: assign `None` at `start` and
`piece` at `goal` wherever those keys exist (when `start = goal` the key
ends up holding `piece`, since the assignment to `None` happens first). -/
def Board.update_move (b : Square → Option Piece) (s g : Square) (p : Piece) :
    Square → Option Piece :=
  fun sq =>
    if onBoard sq then
      (if sq = g then some p else if sq = s then none else b sq)
    else b sq

/-- `Board.update_piece_entered(square, piece)`: assign `piece` at `square`
if that key exists; a no-op for a key outside the board. -/
def Board.update_piece_entered (b : Square → Option Piece) (s : Square) (p : Piece) :
    Square → Option Piece :=
  fun sq => if onBoard sq ∧ sq = s then some p else b sq

/-- Back rank of `Board.__init__` for one side. -/
def back_rank (c : Color) (col : Int) : Option Piece :=
  if col = 97 ∨ col = 104 then some ⟨PieceKind.rook, c, true⟩
  else if col = 98 ∨ col = 103 then some ⟨PieceKind.knight, c, true⟩
  else if col = 99 ∨ col = 102 then some ⟨PieceKind.bishop, c, true⟩
  else if col = 100 then some ⟨PieceKind.queen, c, true⟩
  else if col = 101 then some ⟨PieceKind.king, c, true⟩
  else none

/-- The starting layout of `Board.__init__` (read through
`Board.get_current_piece_on_square`, which masks values outside the 64
keys). -/
def initial_layout : Square → Option Piece :=
  fun sq =>
    if sq.2 = 8 then back_rank Color.black sq.1
    else if sq.2 = 7 then some ⟨PieceKind.pawn, Color.black, true⟩
    else if sq.2 = 2 then some ⟨PieceKind.pawn, Color.white, true⟩
    else if sq.2 = 1 then back_rank Color.white sq.1
    else none

/-- The state owned by a `ChessVar` object: its `Board`, the two `Player`
objects (each a captured-pieces list and a fairy-piece reserve list),
`_player_turn` and `_game_state`. -/
structure ChessVar where
  board : Square → Option Piece
  white_captured : List Piece
  black_captured : List Piece
  white_fairy : List Piece
  black_fairy : List Piece
  player_turn : Int
  game_state : GState

/-- `ChessVar.__init__()`. -/
def ChessVar.new : ChessVar where
  board := initial_layout
  white_captured := []
  black_captured := []
  white_fairy := [⟨PieceKind.falcon, Color.white, true⟩, ⟨PieceKind.hunter, Color.white, true⟩]
  black_fairy := [⟨PieceKind.falcon, Color.black, true⟩, ⟨PieceKind.hunter, Color.black, true⟩]
  player_turn := 1
  game_state := GState.unfinished

/-- The state of the `ChessVar` object right after the
`piece_on_start_square.move_legal(...)` call of `ChessVar.make_move`: the
piece object on the start square is the (possibly flag-updated) object
returned by the call, everything else is untouched. -/
def after_legality (st : ChessVar) (s : Square) (p2 : Piece) : ChessVar :=
  { st with board := fun sq => if sq = s then some p2 else st.board sq }

/-- The capture block of `ChessVar.make_move`: append the captured piece to
the owning player's captured-pieces list. -/
def record_capture (st : ChessVar) (q : Piece) : ChessVar :=
  if q.color = Color.white then
    { st with white_captured := st.white_captured ++ [q] }
  else
    { st with black_captured := st.black_captured ++ [q] }

/-- The king-capture block of `ChessVar.make_move`: set the game state if
the captured piece's label is `'g'` or `'G'`. -/
def record_win (st : ChessVar) (q : Piece) : ChessVar :=
  if labelOf q = 'g' then { st with game_state := GState.whiteWon }
  else if labelOf q = 'G' then { st with game_state := GState.blackWon }
  else st

/-- The tail of the accepting path of `ChessVar.make_move`:
`self._board.update_move(...)`, `self.go_to_next_turn()`, `return True`. -/
def complete_move (st : ChessVar) (s g : Square) (p2 : Piece) : Bool × ChessVar :=
  (true, { st with board := Board.update_move st.board s g p2,
                   player_turn := st.player_turn * (-1) })

/-- The `piece_on_start_square.move_legal(...)` call of
`ChessVar.make_move`, reading the game's board. -/
def legality_call (st : ChessVar) (p : Piece) (s g : Square) : Option Bool × Piece :=
  piece_move_legal p s g (Board.get_current_piece_on_square st.board)

/-- `ChessVar.make_move(start_square, goal_square)`: returns the Python
return value and the `ChessVar` object after the call. -/
def ChessVar.make_move (st : ChessVar) (s g : Square) : Bool × ChessVar :=
  if st.game_state ≠ GState.unfinished then (false, st)
  else if s = g then (false, st)
  else if g.1 < 97 ∨ 104 < g.1 then (false, st)
  else if g.2 < 1 ∨ 8 < g.2 then (false, st)
  else
    match Board.get_current_piece_on_square st.board s with
    | none => (false, st)
    | some piece =>
      if piece.color = Color.black ∧ st.player_turn = 1 then (false, st)
      else if piece.color = Color.white ∧ st.player_turn = -1 then (false, st)
      else
        let md := legality_call st piece s g
        let st1 := after_legality st s md.2
        if md.1 = some false then (false, st1)
        else
          match Board.get_current_piece_on_square st1.board g with
          | none => complete_move st1 s g md.2
          | some q =>
            if q.color = Color.white ∧ st.player_turn = 1 then (false, st1)
            else if q.color = Color.black ∧ st.player_turn = -1 then (false, st1)
            else complete_move (record_win (record_capture st1 q) q) s g md.2

/-- The fairy-piece reserve list of the acting side of
`ChessVar.enter_fairy_piece` (`self._white` if `self._player_turn == 1`,
else `self._black`). -/
def side_fairy (st : ChessVar) : List Piece :=
  if st.player_turn = 1 then st.white_fairy else st.black_fairy

/-- The captured-pieces list of the acting side of
`ChessVar.enter_fairy_piece`. -/
def side_captured (st : ChessVar) : List Piece :=
  if st.player_turn = 1 then st.white_captured else st.black_captured

/-- The membership test `piece.get_label().lower() in ['q', 'r', 'b', 'k']`. -/
def is_major_label (p : Piece) : Bool :=
  decide (labelLowerOf p = 'q' ∨ labelLowerOf p = 'r' ∨
    labelLowerOf p = 'b' ∨ labelLowerOf p = 'k')

/-- The `num_major_pieces` count of `ChessVar.enter_fairy_piece`. -/
def major_count (st : ChessVar) : Nat :=
  (side_captured st).countP is_major_label

/-- The search loop over `available_fairy_pieces`: the last piece whose
label equals `piece_type` (a plain assignment in the loop, so the last
match wins). -/
def find_fairy (l : List Piece) (t : Char) : Option Piece :=
  l.foldl (fun acc p => if labelOf p = t then some p else acc) none

/-- `list.remove(x)`: drop the first element equal to `x`. -/
def remove_first (l : List Piece) (fp : Piece) : List Piece :=
  match l with
  | [] => []
  | x :: xs => if x = fp then xs else x :: remove_first xs fp

/-- The tail of the accepting path of `ChessVar.enter_fairy_piece`:
`self._board.update_piece_entered(...)`, removal of the fairy piece from
the acting player's reserve list, `self.go_to_next_turn()`, `return True`. -/
def finish_entry (st : ChessVar) (sq : Square) (fp : Piece) : Bool × ChessVar :=
  if st.player_turn = 1 then
    (true, { st with board := Board.update_piece_entered st.board sq fp,
                     white_fairy := remove_first st.white_fairy fp,
                     player_turn := st.player_turn * (-1) })
  else
    (true, { st with board := Board.update_piece_entered st.board sq fp,
                     black_fairy := remove_first st.black_fairy fp,
                     player_turn := st.player_turn * (-1) })

/-- `ChessVar.enter_fairy_piece(piece_type, square)`: returns the Python
return value and the `ChessVar` object after the call.  Note that the
home-rank test looks only at the row (`square_row > 2` for White,
`square_row < 7` for Black); the column of `square` is never checked. -/
def ChessVar.enter_fairy_piece (st : ChessVar) (t : Char) (sq : Square) : Bool × ChessVar :=
  if st.game_state ≠ GState.unfinished then (false, st)
  else if (side_fairy st).length = 2 ∧ major_count st = 0 then (false, st)
  else if (side_fairy st).length = 1 ∧ major_count st = 1 then (false, st)
  else if (Board.get_current_piece_on_square st.board sq).isSome then (false, st)
  else if st.player_turn = 1 ∧ 2 < sq.2 then (false, st)
  else if st.player_turn = 1 ∧ t ≠ 'F' ∧ t ≠ 'H' then (false, st)
  else if st.player_turn ≠ 1 ∧ sq.2 < 7 then (false, st)
  else if st.player_turn ≠ 1 ∧ t ≠ 'f' ∧ t ≠ 'h' then (false, st)
  else if (side_fairy st).length = 0 then (false, st)
  else
    match find_fairy (side_fairy st) t with
    | none => (false, st)
    | some fp => finish_entry st sq fp

/-- An engine call: either `make_move` or `enter_fairy_piece`. -/
inductive GameOp where
  | move (s g : Square)
  | enter (t : Char) (sq : Square)

/-- The state after one engine call. -/
def apply_op (st : ChessVar) (c : GameOp) : ChessVar :=
  match c with
  | GameOp.move s g => (st.make_move s g).2
  | GameOp.enter t sq => (st.enter_fairy_piece t sq).2

/-- The state after a sequence of engine calls. -/
def run_ops (st : ChessVar) (l : List GameOp) : ChessVar :=
  l.foldl apply_op st

/-- The side to move (`self._player_turn == 1` selects White everywhere in
`ChessVar`). -/
def side_to_move (st : ChessVar) : Color :=
  if st.player_turn = 1 then Color.white else Color.black

/-- The opposite side. -/
def opp_color (c : Color) : Color :=
  match c with
  | Color.white => Color.black
  | Color.black => Color.white

/-- A square strictly between two squares that share a column or a row. -/
def strictly_between_straight (s g m : Square) : Prop :=
  (m.1 = s.1 ∧ m.1 = g.1 ∧ (s.2 < m.2 ∧ m.2 < g.2 ∨ g.2 < m.2 ∧ m.2 < s.2))
  ∨ (m.2 = s.2 ∧ m.2 = g.2 ∧ (s.1 < m.1 ∧ m.1 < g.1 ∨ g.1 < m.1 ∧ m.1 < s.1))

/-- A square strictly between two squares on a shared diagonal. -/
def strictly_between_diag (s g m : Square) : Prop :=
  ∃ j : Int, 0 < j ∧
    ((s.1 < g.1 ∧ s.2 < g.2 ∧ g.1 - s.1 = g.2 - s.2 ∧ j < g.2 - s.2 ∧
        m = (s.1 + j, s.2 + j)) ∨
     (s.1 < g.1 ∧ g.2 < s.2 ∧ g.1 - s.1 = s.2 - g.2 ∧ j < s.2 - g.2 ∧
        m = (s.1 + j, s.2 - j)) ∨
     (g.1 < s.1 ∧ s.2 < g.2 ∧ s.1 - g.1 = g.2 - s.2 ∧ j < g.2 - s.2 ∧
        m = (s.1 - j, s.2 + j)) ∨
     (g.1 < s.1 ∧ g.2 < s.2 ∧ s.1 - g.1 = s.2 - g.2 ∧ j < s.2 - g.2 ∧
        m = (s.1 - j, s.2 - j)))

/-- The position after 1. a2-a3 f7-f5 2. a3-a4 f5-f4 from the starting
position: White to move, a black pawn on f4, the white e2 pawn unmoved. -/
def pawn_bug_position : ChessVar :=
  ((((ChessVar.new.make_move (97, 2) (97, 3)).2.make_move
      (102, 7) (102, 5)).2.make_move (97, 3) (97, 4)).2.make_move (102, 5) (102, 4)).2

/-- The position after 1. Nb1-c3 h7-h6 2. Nc3-d5 h6-h5 3. Nd5-b6 a7xb6
from the starting position: White has lost a knight (so is eligible to
enter a fairy piece), White to move, game unfinished. -/
def fairy_bug_position : ChessVar :=
  ((((((ChessVar.new.make_move (98, 1) (99, 3)).2.make_move
      (104, 7) (104, 6)).2.make_move (99, 3) (100, 5)).2.make_move
      (104, 6) (104, 5)).2.make_move (100, 5) (98, 6)).2.make_move (97, 7) (98, 6)).2

/-- A board holding only a white queen on d1. -/
def queen_only_board : Square → Option Piece :=
  fun sq => if sq = ((100 : Int), (1 : Int)) then some ⟨PieceKind.queen, Color.white, true⟩
            else none

/-- The position after 1. d2-d4 a7-a6 from the starting position: the d
file above the white queen is clear. -/
def queen_game_position : ChessVar :=
  ((ChessVar.new.make_move (100, 2) (100, 4)).2.make_move (97, 7) (97, 6)).2

/-- A handcrafted position: a white rook on e1 and the black king on e8,
White to move, game unfinished, empty ledgers and reserves. -/
def boardWK : ChessVar where
  board := fun sq =>
    if sq = ((101 : Int), (1 : Int)) then some ⟨PieceKind.rook, Color.white, true⟩
    else if sq = ((101 : Int), (8 : Int)) then some ⟨PieceKind.king, Color.black, true⟩
    else none
  white_captured := []
  black_captured := []
  white_fairy := []
  black_fairy := []
  player_turn := 1
  game_state := GState.unfinished

/-- A handcrafted position: empty board, White has lost a rook, both fairy
pieces still in reserve, White to move. -/
def boardC5 : ChessVar where
  board := fun _ => none
  white_captured := [⟨PieceKind.rook, Color.white, true⟩]
  black_captured := []
  white_fairy := [⟨PieceKind.falcon, Color.white, true⟩, ⟨PieceKind.hunter, Color.white, true⟩]
  black_fairy := []
  player_turn := 1
  game_state := GState.unfinished

/-- The empty occupancy function. -/
def occ_empty : Occ := fun _ => none

/-- An occupancy function holding a single white pawn on a2. -/
def occ_one : Occ :=
  fun x => if x = ((97 : Int), (2 : Int))
           then some ⟨PieceKind.pawn, Color.white, true⟩ else none


/-! Basic facts about the helper operations. -/

lemma after_legality_turn (st : ChessVar) (s : Square) (p2 : Piece) :
    (after_legality st s p2).player_turn = st.player_turn := rfl

lemma after_legality_state (st : ChessVar) (s : Square) (p2 : Piece) :
    (after_legality st s p2).game_state = st.game_state := rfl

lemma after_legality_wc (st : ChessVar) (s : Square) (p2 : Piece) :
    (after_legality st s p2).white_captured = st.white_captured := rfl

lemma after_legality_bc (st : ChessVar) (s : Square) (p2 : Piece) :
    (after_legality st s p2).black_captured = st.black_captured := rfl

lemma after_legality_wf (st : ChessVar) (s : Square) (p2 : Piece) :
    (after_legality st s p2).white_fairy = st.white_fairy := rfl

lemma after_legality_bf (st : ChessVar) (s : Square) (p2 : Piece) :
    (after_legality st s p2).black_fairy = st.black_fairy := rfl

lemma after_legality_get_ne (st : ChessVar) (s : Square) (p2 : Piece)
    (sq : Square) (h : sq ≠ s) :
    Board.get_current_piece_on_square (after_legality st s p2).board sq
      = Board.get_current_piece_on_square st.board sq := by
  simp [after_legality, Board.get_current_piece_on_square, h]

lemma record_capture_turn (st : ChessVar) (q : Piece) :
    (record_capture st q).player_turn = st.player_turn := by
  unfold record_capture; split <;> rfl

lemma record_capture_state (st : ChessVar) (q : Piece) :
    (record_capture st q).game_state = st.game_state := by
  unfold record_capture; split <;> rfl

lemma record_capture_board (st : ChessVar) (q : Piece) :
    (record_capture st q).board = st.board := by
  unfold record_capture; split <;> rfl

lemma record_win_turn (st : ChessVar) (q : Piece) :
    (record_win st q).player_turn = st.player_turn := by
  unfold record_win
  split
  · rfl
  · split <;> rfl

lemma record_win_board (st : ChessVar) (q : Piece) :
    (record_win st q).board = st.board := by
  unfold record_win
  split
  · rfl
  · split <;> rfl

lemma record_win_state (st : ChessVar) (q : Piece) :
    (record_win st q).game_state
      = (if labelOf q = 'g' then GState.whiteWon
         else if labelOf q = 'G' then GState.blackWon
         else st.game_state) := by
  unfold record_win
  split
  · simp_all
  · split <;> simp_all

lemma complete_move_fst (st : ChessVar) (s g : Square) (p2 : Piece) :
    (complete_move st s g p2).1 = true := rfl

lemma complete_move_turn (st : ChessVar) (s g : Square) (p2 : Piece) :
    (complete_move st s g p2).2.player_turn = st.player_turn * (-1) := rfl

lemma complete_move_state (st : ChessVar) (s g : Square) (p2 : Piece) :
    (complete_move st s g p2).2.game_state = st.game_state := rfl

lemma complete_move_board (st : ChessVar) (s g : Square) (p2 : Piece) :
    (complete_move st s g p2).2.board = Board.update_move st.board s g p2 := rfl

lemma finish_entry_fst (st : ChessVar) (sq : Square) (fp : Piece) :
    (finish_entry st sq fp).1 = true := by
  unfold finish_entry; split <;> rfl

lemma finish_entry_turn (st : ChessVar) (sq : Square) (fp : Piece) :
    (finish_entry st sq fp).2.player_turn = st.player_turn * (-1) := by
  unfold finish_entry; split <;> rfl

lemma finish_entry_state (st : ChessVar) (sq : Square) (fp : Piece) :
    (finish_entry st sq fp).2.game_state = st.game_state := by
  unfold finish_entry; split <;> rfl

/-- Case analysis on the outcome of `ChessVar.make_move`: every rejecting
branch returns either the unchanged state or the state whose start square
holds the piece object returned by the `move_legal` call; the two
accepting branches are `complete_move` applied after the optional capture
bookkeeping. -/
lemma make_move_out (st : ChessVar) (s g : Square) :
    st.make_move s g = (false, st)
    ∨ (∃ p, Board.get_current_piece_on_square st.board s = some p ∧
        st.make_move s g = (false, after_legality st s (legality_call st p s g).2))
    ∨ (∃ p, Board.get_current_piece_on_square st.board s = some p ∧
        st.game_state = GState.unfinished ∧ s ≠ g ∧ onBoard g = true ∧
        ¬(p.color = Color.black ∧ st.player_turn = 1) ∧
        ¬(p.color = Color.white ∧ st.player_turn = -1) ∧
        (legality_call st p s g).1 ≠ some false ∧
        ((Board.get_current_piece_on_square st.board g = none ∧
          st.make_move s g
            = complete_move (after_legality st s (legality_call st p s g).2) s g
                (legality_call st p s g).2)
         ∨ (∃ q, Board.get_current_piece_on_square st.board g = some q ∧
              ¬(q.color = Color.white ∧ st.player_turn = 1) ∧
              ¬(q.color = Color.black ∧ st.player_turn = -1) ∧
              st.make_move s g
                = complete_move
                    (record_win
                      (record_capture (after_legality st s (legality_call st p s g).2) q) q)
                    s g (legality_call st p s g).2))) := by
  by_cases h1 : st.game_state ≠ GState.unfinished
  · exact Or.inl (by simp [ChessVar.make_move, h1])
  by_cases h2 : s = g
  · exact Or.inl (by simp [ChessVar.make_move, h1, h2])
  by_cases h3 : g.1 < 97 ∨ 104 < g.1
  · exact Or.inl (by simp [ChessVar.make_move, h1, h2, h3])
  by_cases h4 : g.2 < 1 ∨ 8 < g.2
  · exact Or.inl (by simp [ChessVar.make_move, h1, h2, h3, h4])
  rcases h5 : Board.get_current_piece_on_square st.board s with _ | p
  · exact Or.inl (by simp [ChessVar.make_move, h1, h2, h3, h4, h5])
  by_cases h6 : p.color = Color.black ∧ st.player_turn = 1
  · exact Or.inl (by simp [ChessVar.make_move, h1, h2, h3, h4, h5, h6])
  by_cases h7 : p.color = Color.white ∧ st.player_turn = -1
  · exact Or.inl (by simp [ChessVar.make_move, h1, h2, h3, h4, h5, h6, h7])
  have hg : onBoard g = true := by
    simp only [onBoard, decide_eq_true_eq]
    push_neg at h3 h4
    exact ⟨by omega, by omega, by omega, by omega⟩
  by_cases h8 : (legality_call st p s g).1 = some false
  · exact Or.inr (Or.inl ⟨p, rfl,
      by simp [ChessVar.make_move, h1, h2, h3, h4, h5, h6, h7, h8]⟩)
  have hgs : Board.get_current_piece_on_square
      (after_legality st s (legality_call st p s g).2).board g
      = Board.get_current_piece_on_square st.board g :=
    after_legality_get_ne st s _ g (Ne.symm h2)
  rcases h9 : Board.get_current_piece_on_square st.board g with _ | q
  · refine Or.inr (Or.inr ⟨p, rfl, not_not.mp h1, h2, hg, h6, h7, h8, Or.inl ⟨rfl, ?_⟩⟩)
    simp [ChessVar.make_move, h1, h2, h3, h4, h5, h6, h7, h8, hgs, h9]
  by_cases h10 : q.color = Color.white ∧ st.player_turn = 1
  · refine Or.inr (Or.inl ⟨p, rfl, ?_⟩)
    cases hpc : p.color with
    | white =>
      simp [ChessVar.make_move, h1, h2, h3, h4, h5, hpc, h8, hgs, h9,
        h10.1, h10.2]
    | black => exact absurd ⟨hpc, h10.2⟩ h6
  by_cases h11 : q.color = Color.black ∧ st.player_turn = -1
  · refine Or.inr (Or.inl ⟨p, rfl, ?_⟩)
    cases hpc : p.color with
    | white => exact absurd ⟨hpc, h11.2⟩ h7
    | black =>
      simp [ChessVar.make_move, h1, h2, h3, h4, h5, hpc, h8, hgs, h9,
        h10, h11.1, h11.2]
  refine Or.inr (Or.inr ⟨p, rfl, not_not.mp h1, h2, hg, h6, h7, h8,
    Or.inr ⟨q, rfl, h10, h11, ?_⟩⟩)
  simp [ChessVar.make_move, h1, h2, h3, h4, h5, h6, h7, h8, hgs, h9, h10, h11]

/-- Case analysis on the outcome of `ChessVar.enter_fairy_piece`: every
rejecting branch returns the unchanged state; the accepting branch is
`finish_entry`. -/
lemma enter_out (st : ChessVar) (t : Char) (sq : Square) :
    st.enter_fairy_piece t sq = (false, st)
    ∨ (∃ fp, find_fairy (side_fairy st) t = some fp ∧
        st.enter_fairy_piece t sq = finish_entry st sq fp) := by
  by_cases h1 : st.game_state ≠ GState.unfinished
  · exact Or.inl (by simp [ChessVar.enter_fairy_piece, h1])
  by_cases h2 : (side_fairy st).length = 2 ∧ major_count st = 0
  · exact Or.inl (by simp [ChessVar.enter_fairy_piece, h1, h2])
  by_cases h3 : (side_fairy st).length = 1 ∧ major_count st = 1
  · exact Or.inl (by simp [ChessVar.enter_fairy_piece, h1, h2, h3])
  by_cases h4 : (Board.get_current_piece_on_square st.board sq).isSome = true
  · exact Or.inl (by simp [ChessVar.enter_fairy_piece, h1, h2, h3, h4])
  by_cases h5 : st.player_turn = 1 ∧ 2 < sq.2
  · exact Or.inl (by simp [ChessVar.enter_fairy_piece, h1, h2, h3, h4, h5])
  by_cases h6 : st.player_turn = 1 ∧ t ≠ 'F' ∧ t ≠ 'H'
  · exact Or.inl (by simp [ChessVar.enter_fairy_piece, h1, h2, h3, h4, h5, h6])
  by_cases h7 : st.player_turn ≠ 1 ∧ sq.2 < 7
  · exact Or.inl (by simp [ChessVar.enter_fairy_piece, h1, h2, h3, h4, h5, h6, h7])
  by_cases h8 : st.player_turn ≠ 1 ∧ t ≠ 'f' ∧ t ≠ 'h'
  · exact Or.inl (by simp [ChessVar.enter_fairy_piece, h1, h2, h3, h4, h5, h6, h7, h8])
  by_cases h9 : (side_fairy st).length = 0
  · exact Or.inl (by simp [ChessVar.enter_fairy_piece, h1, h2, h3, h4, h5, h6, h7, h8, h9])
  rcases h10 : find_fairy (side_fairy st) t with _ | fp
  · exact Or.inl (by simp [ChessVar.enter_fairy_piece, h1, h2, h3, h4, h5, h6, h7, h8, h9, h10])
  · exact Or.inr ⟨fp, rfl,
      by simp [ChessVar.enter_fairy_piece, h1, h2, h3, h4, h5, h6, h7, h8, h9, h10]⟩

/-! Shape of the piece object returned by a `move_legal` call. -/

lemma pawn_move_legal_flag (p : Piece) (s g : Square) (occ : Occ) :
    (Pawn.move_legal p s g occ).2 = p.first_move
    ∨ (Pawn.move_legal p s g occ).2 = false := by
  unfold Pawn.move_legal
  split_ifs <;> simp

lemma legality_call_snd (st : ChessVar) (p : Piece) (s g : Square) :
    (legality_call st p s g).2 = p
    ∨ (p.kind = PieceKind.pawn ∧
        (legality_call st p s g).2 = { p with first_move := false }) := by
  obtain ⟨k, c, f⟩ := p
  unfold legality_call piece_move_legal
  cases k <;> simp
  rcases pawn_move_legal_flag ⟨PieceKind.pawn, c, f⟩ s g
      (Board.get_current_piece_on_square st.board) with h | h <;> rw [h]
  · left; rfl
  · right; rfl

lemma legality_call_kind (st : ChessVar) (p : Piece) (s g : Square) :
    (legality_call st p s g).2.kind = p.kind := by
  rcases legality_call_snd st p s g with h | ⟨_, h⟩ <;> rw [h]

lemma legality_call_color (st : ChessVar) (p : Piece) (s g : Square) :
    (legality_call st p s g).2.color = p.color := by
  rcases legality_call_snd st p s g with h | ⟨_, h⟩ <;> rw [h]

/-! Facts about board reads after updates. -/

lemma get_some_onBoard {b : Square → Option Piece} {sq : Square} {p : Piece}
    (h : Board.get_current_piece_on_square b sq = some p) : onBoard sq = true := by
  by_cases hb : onBoard sq = true
  · exact hb
  · rw [Board.get_current_piece_on_square, if_neg hb] at h
    cases h

lemma after_legality_get_self (st : ChessVar) (s : Square) (p2 : Piece)
    (hob : onBoard s = true) :
    Board.get_current_piece_on_square (after_legality st s p2).board s = some p2 := by
  simp [after_legality, Board.get_current_piece_on_square, hob]

lemma get_update_move_start {b : Square → Option Piece} {s g : Square} {p2 : Piece}
    (hob : onBoard s = true) (hne : s ≠ g) :
    Board.get_current_piece_on_square (Board.update_move b s g p2) s = none := by
  simp [Board.get_current_piece_on_square, Board.update_move, hob, hne]

lemma get_update_move_goal {b : Square → Option Piece} {s g : Square} {p2 : Piece}
    (hob : onBoard g = true) :
    Board.get_current_piece_on_square (Board.update_move b s g p2) g = some p2 := by
  simp [Board.get_current_piece_on_square, Board.update_move, hob]

/-! Terminal games reject every call without changing anything. -/

lemma make_move_terminal (st : ChessVar) (s g : Square)
    (h : st.game_state ≠ GState.unfinished) : st.make_move s g = (false, st) := by
  simp [ChessVar.make_move, h]

lemma enter_terminal (st : ChessVar) (t : Char) (sq : Square)
    (h : st.game_state ≠ GState.unfinished) : st.enter_fairy_piece t sq = (false, st) := by
  simp [ChessVar.enter_fairy_piece, h]

/-! The turn counter after each call. -/

lemma make_move_turn_eq (st : ChessVar) (s g : Square) :
    (st.make_move s g).2.player_turn
      = if (st.make_move s g).1 then st.player_turn * (-1) else st.player_turn := by
  rcases make_move_out st s g with h | ⟨p, hp, h⟩ | ⟨p, hp, _, _, _, _, _, _, hrest⟩
  · rw [h]; simp
  · rw [h]; rfl
  · rcases hrest with ⟨_, h⟩ | ⟨q, _, _, _, h⟩ <;> rw [h] <;>
      simp [complete_move_turn, complete_move_fst, after_legality_turn,
        record_win_turn, record_capture_turn]

lemma enter_turn_eq (st : ChessVar) (t : Char) (sq : Square) :
    (st.enter_fairy_piece t sq).2.player_turn
      = if (st.enter_fairy_piece t sq).1 then st.player_turn * (-1) else st.player_turn := by
  rcases enter_out st t sq with h | ⟨fp, _, h⟩ <;> rw [h]
  · simp
  · simp [finish_entry_turn, finish_entry_fst]

/-- C1 (counterexample): after 1. Ng1-f3 Nb8-c6, the call
`make_move('e2','f3')` is rejected by the self-capture check, yet the white
pawn on e2 — whose `move_legal` accepted the diagonal move before the
rejection — has had its first-move flag cleared by the rejected call, so
the claimed "every piece's internal state is exactly as before" is false. -/
theorem claim1_counterexample :
    (((ChessVar.new.make_move (103, 1) (102, 3)).2.make_move (98, 8) (99, 6)).2.make_move
        (101, 2) (102, 3)).1 = false
    ∧ Board.get_current_piece_on_square
        ((ChessVar.new.make_move (103, 1) (102, 3)).2.make_move (98, 8) (99, 6)).2.board
        (101, 2) = some ⟨PieceKind.pawn, Color.white, true⟩
    ∧ Board.get_current_piece_on_square
        (((ChessVar.new.make_move (103, 1) (102, 3)).2.make_move (98, 8) (99, 6)).2.make_move
            (101, 2) (102, 3)).2.board
        (101, 2) = some ⟨PieceKind.pawn, Color.white, false⟩ := by
  refine ⟨?_, ?_, ?_⟩ <;> decide

/-- C1 (amended): a rejected `make_move` leaves the turn counter, the game
state, both captured-piece ledgers, both fairy-piece reserves, and every
square other than the start square unchanged; the start square either is
also unchanged or — when the piece there is a pawn whose `move_legal`
accepted the move before a later check rejected it — holds the same pawn
with its first-move flag cleared. -/
theorem claim1_rejection_atomic (st : ChessVar) (s g : Square)
    (h : (st.make_move s g).1 = false) :
    (st.make_move s g).2.player_turn = st.player_turn
    ∧ (st.make_move s g).2.game_state = st.game_state
    ∧ (st.make_move s g).2.white_captured = st.white_captured
    ∧ (st.make_move s g).2.black_captured = st.black_captured
    ∧ (st.make_move s g).2.white_fairy = st.white_fairy
    ∧ (st.make_move s g).2.black_fairy = st.black_fairy
    ∧ (∀ sq : Square, sq ≠ s →
        Board.get_current_piece_on_square (st.make_move s g).2.board sq
          = Board.get_current_piece_on_square st.board sq)
    ∧ (Board.get_current_piece_on_square (st.make_move s g).2.board s
          = Board.get_current_piece_on_square st.board s
       ∨ ∃ p, Board.get_current_piece_on_square st.board s = some p
           ∧ p.kind = PieceKind.pawn
           ∧ Board.get_current_piece_on_square (st.make_move s g).2.board s
               = some { p with first_move := false }) := by
  rcases make_move_out st s g with hme | ⟨p, hp, hme⟩ | ⟨p, hp, _, _, _, _, _, _, hrest⟩
  · rw [hme]
    exact ⟨rfl, rfl, rfl, rfl, rfl, rfl, fun _ _ => rfl, Or.inl rfl⟩
  · have hob : onBoard s = true := get_some_onBoard hp
    rw [hme]
    refine ⟨rfl, rfl, rfl, rfl, rfl, rfl,
      fun sq hsq => after_legality_get_ne st s _ sq hsq, ?_⟩
    rcases legality_call_snd st p s g with hps | ⟨hk, hps⟩
    · left
      rw [after_legality_get_self st s _ hob, hps, hp]
    · right
      exact ⟨p, hp, hk, by rw [after_legality_get_self st s _ hob, hps]⟩
  · rcases hrest with ⟨_, hme⟩ | ⟨q, _, _, _, hme⟩ <;> rw [hme] at h <;>
      simp [complete_move_fst] at h

/-- C1 (witness for the amended theorem): instantiated at the rejected null
move `make_move('e2','e2')` from the starting position. -/
theorem claim1_witness :
    (ChessVar.new.make_move (101, 2) (101, 2)).2.game_state = ChessVar.new.game_state
    ∧ (ChessVar.new.make_move (101, 2) (101, 2)).2.player_turn = ChessVar.new.player_turn :=
  ⟨(claim1_rejection_atomic ChessVar.new (101, 2) (101, 2) (by decide)).2.1,
   (claim1_rejection_atomic ChessVar.new (101, 2) (101, 2) (by decide)).1⟩

/-- C4: capturing a King completes the move on the board and sets the game
state to the capturing side's win, and a terminal game state makes every
subsequent `make_move`, `enter_fairy_piece`, or sequence thereof return a
rejection with the state unchanged. -/
theorem claim4_win_finality :
    (∀ (st : ChessVar) (s g : Square) (q : Piece),
      st.player_turn = 1 ∨ st.player_turn = -1 →
      (st.make_move s g).1 = true →
      Board.get_current_piece_on_square st.board g = some q →
      q.kind = PieceKind.king →
      (st.make_move s g).2.game_state
          = (if q.color = Color.black then GState.whiteWon else GState.blackWon)
        ∧ (st.make_move s g).2.game_state ≠ GState.unfinished
        ∧ side_to_move st ≠ q.color
        ∧ Board.get_current_piece_on_square (st.make_move s g).2.board s = none
        ∧ (∃ pm, Board.get_current_piece_on_square (st.make_move s g).2.board g = some pm
            ∧ pm.color = side_to_move st))
    ∧ (∀ (st : ChessVar) (s g : Square), st.game_state ≠ GState.unfinished →
        st.make_move s g = (false, st))
    ∧ (∀ (st : ChessVar) (t : Char) (sq : Square), st.game_state ≠ GState.unfinished →
        st.enter_fairy_piece t sq = (false, st))
    ∧ (∀ (st : ChessVar) (l : List GameOp), st.game_state ≠ GState.unfinished →
        run_ops st l = st) := by
  refine ⟨?_, make_move_terminal, enter_terminal, ?_⟩
  · intro st s g q hpm hfst hq hking
    rcases make_move_out st s g with hme | ⟨p, hp, hme⟩ | ⟨p, hp, _, hne, hg, h6, h7, _, hrest⟩
    · rw [hme] at hfst; cases hfst
    · rw [hme] at hfst; cases hfst
    rcases hrest with ⟨h9, hme⟩ | ⟨q', h9, h10, h11, hme⟩
    · rw [h9] at hq; cases hq
    have heq : q' = q := by rw [h9] at hq; exact Option.some.inj hq
    rw [heq] at h9 h10 h11 hme
    have hob : onBoard s = true := get_some_onBoard hp
    obtain ⟨qk, qc, qf⟩ := q
    obtain rfl : qk = PieceKind.king := hking
    have hlab : labelOf ⟨PieceKind.king, qc, qf⟩
        = (if (Piece.mk PieceKind.king qc qf).color = Color.black then 'g' else 'G') := by
      cases qc <;> rfl
    constructor
    · rw [hme, complete_move_state, record_win_state, record_capture_state,
        after_legality_state, hlab]
      cases qc <;> simp
    constructor
    · rw [hme, complete_move_state, record_win_state, record_capture_state,
        after_legality_state, hlab]
      cases qc <;> simp
    constructor
    · rcases hpm with ht | ht
      · intro hside
        rw [side_to_move, if_pos ht] at hside
        exact h10 ⟨hside.symm, ht⟩
      · intro hside
        rw [side_to_move, if_neg (by rw [ht]; decide)] at hside
        exact h11 ⟨hside.symm, ht⟩
    constructor
    · rw [hme, complete_move_board, record_win_board, record_capture_board]
      exact get_update_move_start hob hne
    · refine ⟨(legality_call st p s g).2, ?_, ?_⟩
      · rw [hme, complete_move_board, record_win_board, record_capture_board]
        exact get_update_move_goal hg
      · rw [legality_call_color]
        rcases hpm with ht | ht
        · rw [side_to_move, if_pos ht]
          cases hc : p.color
          · rfl
          · exact absurd ⟨hc, ht⟩ h6
        · rw [side_to_move, if_neg (by rw [ht]; decide)]
          cases hc : p.color
          · exact absurd ⟨hc, ht⟩ h7
          · rfl
  · intro st l h
    induction l with
    | nil => rfl
    | cons c l ih =>
      have h1 : apply_op st c = st := by
        cases c with
        | move s g => simp [apply_op, make_move_terminal st _ _ h]
        | enter t sq => simp [apply_op, enter_terminal st _ _ h]
      show List.foldl apply_op st (c :: l) = st
      rw [List.foldl_cons, h1]
      exact ih

/-- C4 (witness): in `boardWK`, `make_move('e1','e8')` captures the king,
and the terminal-state conjuncts are instantiated on a finished state. -/
theorem claim4_witness :
    ((boardWK.make_move (101, 1) (101, 8)).2.game_state
        = (if (Piece.mk PieceKind.king Color.black true).color = Color.black
           then GState.whiteWon else GState.blackWon))
    ∧ ({ boardWK with game_state := GState.whiteWon }.make_move (101, 8) (101, 7)
        = (false, { boardWK with game_state := GState.whiteWon }))
    ∧ ({ boardWK with game_state := GState.whiteWon }.enter_fairy_piece 'f' (97, 8)
        = (false, { boardWK with game_state := GState.whiteWon }))
    ∧ (run_ops { boardWK with game_state := GState.whiteWon }
        [GameOp.move (101, 8) (101, 7)] = { boardWK with game_state := GState.whiteWon }) :=
  ⟨(claim4_win_finality.1 boardWK (101, 1) (101, 8) ⟨PieceKind.king, Color.black, true⟩
      (Or.inl (by decide)) (by decide) (by decide) (by decide)).1,
   claim4_win_finality.2.1 _ (101, 8) (101, 7) (by decide),
   claim4_win_finality.2.2.1 _ 'f' (97, 8) (by decide),
   claim4_win_finality.2.2.2 _ [GameOp.move (101, 8) (101, 7)] (by decide)⟩

/-- C8: after any call, the turn counter is negated exactly when the call
returned `True`; consequently, starting from a turn counter in `{1, -1}`,
the side to move flips after an accepted call and is unchanged after a
rejected one. -/
theorem claim8_turn_alternation (st : ChessVar) (s g : Square) (t : Char) (sq : Square)
    (hpm : st.player_turn = 1 ∨ st.player_turn = -1) :
    ((st.make_move s g).2.player_turn
      = if (st.make_move s g).1 then -st.player_turn else st.player_turn)
    ∧ (side_to_move (st.make_move s g).2
      = if (st.make_move s g).1 then opp_color (side_to_move st) else side_to_move st)
    ∧ ((st.enter_fairy_piece t sq).2.player_turn
      = if (st.enter_fairy_piece t sq).1 then -st.player_turn else st.player_turn)
    ∧ (side_to_move (st.enter_fairy_piece t sq).2
      = if (st.enter_fairy_piece t sq).1 then opp_color (side_to_move st) else side_to_move st) := by
  have hm := make_move_turn_eq st s g
  have he := enter_turn_eq st t sq
  rw [mul_neg_one] at hm he
  refine ⟨hm, ?_, he, ?_⟩
  · rcases hpm with ht | ht <;>
      cases hb : (st.make_move s g).1 <;>
        simp [side_to_move, opp_color, hm, hb, ht]
  · rcases hpm with ht | ht <;>
      cases hb : (st.enter_fairy_piece t sq).1 <;>
        simp [side_to_move, opp_color, he, hb, ht]

/-- C8 (witness): instantiated at the opening move `make_move('e2','e4')`
and a rejected fairy entry from the starting position. -/
theorem claim8_witness :
    side_to_move (ChessVar.new.make_move (101, 2) (101, 4)).2
      = (if (ChessVar.new.make_move (101, 2) (101, 4)).1
         then opp_color (side_to_move ChessVar.new) else side_to_move ChessVar.new)
    ∧ side_to_move (ChessVar.new.enter_fairy_piece 'F' (97, 1)).2
      = (if (ChessVar.new.enter_fairy_piece 'F' (97, 1)).1
         then opp_color (side_to_move ChessVar.new) else side_to_move ChessVar.new) :=
  ⟨(claim8_turn_alternation ChessVar.new (101, 2) (101, 4) 'F' (97, 1)
      (Or.inl (by decide))).2.1,
   (claim8_turn_alternation ChessVar.new (101, 2) (101, 4) 'F' (97, 1)
      (Or.inl (by decide))).2.2.2⟩

/-- C10: `Board.get_current_piece_on_square` returns `None` for every
square pair outside the 64 board keys, on any board; consequently
`make_move` from an out-of-bounds start square is always rejected with the
state unchanged, even though only the goal square is bounds-checked
explicitly. -/
theorem claim10_out_of_bounds_start :
    (∀ (b : Square → Option Piece) (sq : Square), onBoard sq = false →
      Board.get_current_piece_on_square b sq = none)
    ∧ (∀ (st : ChessVar) (s g : Square), onBoard s = false →
        st.make_move s g = (false, st)) := by
  constructor
  · intro b sq h
    simp [Board.get_current_piece_on_square, h]
  · intro st s g h
    have hb : Board.get_current_piece_on_square st.board s = none := by
      simp [Board.get_current_piece_on_square, h]
    by_cases h1 : st.game_state ≠ GState.unfinished
    · simp [ChessVar.make_move, h1]
    by_cases h2 : s = g
    · simp [ChessVar.make_move, h1, h2]
    by_cases h3 : g.1 < 97 ∨ 104 < g.1
    · simp [ChessVar.make_move, h1, h2, h3]
    by_cases h4 : g.2 < 1 ∨ 8 < g.2
    · simp [ChessVar.make_move, h1, h2, h3, h4]
    simp [ChessVar.make_move, h1, h2, h3, h4, hb]

/-- C10 (witness): the square `'i1'` is off the board, and a move from it
is rejected without changing the starting position. -/
theorem claim10_witness :
    Board.get_current_piece_on_square initial_layout (105, 1) = none
    ∧ ChessVar.new.make_move (105, 1) (104, 3) = (false, ChessVar.new) :=
  ⟨claim10_out_of_bounds_start.1 initial_layout (105, 1) (by decide),
   claim10_out_of_bounds_start.2 ChessVar.new (105, 1) (104, 3) (by decide)⟩

/-! The fairy-piece search succeeds when a matching piece is available. -/

lemma find_fairy_go_isSome (t : Char) (l : List Piece) :
    ∀ acc : Option Piece,
      acc.isSome = true ∨ (∃ p ∈ l, labelOf p = t) →
      (l.foldl (fun a p => if labelOf p = t then some p else a) acc).isSome = true := by
  induction l with
  | nil =>
    intro acc h
    rcases h with h | ⟨p, hp, _⟩
    · exact h
    · cases hp
  | cons x xs ih =>
    intro acc h
    simp only [List.foldl_cons]
    by_cases hx : labelOf x = t
    · exact ih _ (Or.inl (by simp [hx]))
    · refine ih _ ?_
      rcases h with h | ⟨p, hp, hl⟩
      · exact Or.inl (by simp [hx, h])
      · rcases List.mem_cons.mp hp with rfl | hp2
        · exact absurd hl hx
        · exact Or.inr ⟨p, hp2, hl⟩

lemma find_fairy_isSome (l : List Piece) (t : Char)
    (h : ∃ p ∈ l, labelOf p = t) : ∃ fp, find_fairy l t = some fp := by
  have := find_fairy_go_isSome t l none (Or.inr h)
  exact Option.isSome_iff_exists.mp this

/-- C5: fairy-piece entry is rejected with a full reserve and no recorded
major-piece loss, and rejected with one reserve piece and exactly one
recorded loss; when the recorded major-piece losses are at least the
number of fairy pieces already entered plus one, entering an available
fairy piece of the acting side's own color on an empty home-rank square
of an unfinished game succeeds. -/
theorem claim5_eligibility (st : ChessVar) (t : Char) (sq : Square) :
    ((side_fairy st).length = 2 → major_count st = 0 →
      (st.enter_fairy_piece t sq).1 = false)
    ∧ ((side_fairy st).length = 1 → major_count st = 1 →
      (st.enter_fairy_piece t sq).1 = false)
    ∧ (st.game_state = GState.unfinished →
      3 - (side_fairy st).length ≤ major_count st →
      Board.get_current_piece_on_square st.board sq = none →
      (st.player_turn = 1 → (sq.2 = 1 ∨ sq.2 = 2) ∧ (t = 'F' ∨ t = 'H')) →
      (st.player_turn ≠ 1 → (sq.2 = 7 ∨ sq.2 = 8) ∧ (t = 'f' ∨ t = 'h')) →
      (∃ p ∈ side_fairy st, labelOf p = t) →
      (st.enter_fairy_piece t sq).1 = true) := by
  refine ⟨?_, ?_, ?_⟩
  · intro hl hc
    by_cases h1 : st.game_state ≠ GState.unfinished
    · simp [ChessVar.enter_fairy_piece, h1]
    · simp [ChessVar.enter_fairy_piece, h1, hl, hc]
  · intro hl hc
    by_cases h1 : st.game_state ≠ GState.unfinished
    · simp [ChessVar.enter_fairy_piece, h1]
    · simp [ChessVar.enter_fairy_piece, h1, hl, hc]
  · intro hgs hcnt hemp hw hb havail
    have g1 : ¬(st.game_state ≠ GState.unfinished) := by simp [hgs]
    have g2 : ¬((side_fairy st).length = 2 ∧ major_count st = 0) := by omega
    have g3 : ¬((side_fairy st).length = 1 ∧ major_count st = 1) := by omega
    have g5 : ¬(st.player_turn = 1 ∧ 2 < sq.2) := by
      rintro ⟨ht, hr⟩
      rcases (hw ht).1 with h | h <;> omega
    have g6 : ¬(st.player_turn = 1 ∧ t ≠ 'F' ∧ t ≠ 'H') := by
      rintro ⟨ht, hF, hH⟩
      rcases (hw ht).2 with h | h
      · exact hF h
      · exact hH h
    have g7 : ¬(st.player_turn ≠ 1 ∧ sq.2 < 7) := by
      rintro ⟨ht, hr⟩
      rcases (hb ht).1 with h | h <;> omega
    have g8 : ¬(st.player_turn ≠ 1 ∧ t ≠ 'f' ∧ t ≠ 'h') := by
      rintro ⟨ht, hf, hh⟩
      rcases (hb ht).2 with h | h
      · exact hf h
      · exact hh h
    have g9 : ¬((side_fairy st).length = 0) := by
      obtain ⟨p, hp, _⟩ := havail
      intro h0
      rw [List.length_eq_zero] at h0
      rw [h0] at hp
      cases hp
    obtain ⟨fp, hfp⟩ := find_fairy_isSome (side_fairy st) t havail
    simp [ChessVar.enter_fairy_piece, g1, g2, g3, hemp, g5, g6, g7, g8, g9, hfp,
      finish_entry_fst]

/-- C5 (witness): instantiated at a position where White has lost a rook
and enters the Falcon on the empty square a1 (success), and at the
starting position (rejection with a full reserve and no losses). -/
theorem claim5_witness :
    (boardC5.enter_fairy_piece 'F' (97, 1)).1 = true
    ∧ (ChessVar.new.enter_fairy_piece 'F' (97, 1)).1 = false :=
  ⟨(claim5_eligibility boardC5 'F' (97, 1)).2.2 (by decide) (by decide) (by decide)
      (fun _ => by decide) (fun h => absurd (by decide) h) (by decide),
   (claim5_eligibility ChessVar.new 'F' (97, 1)).1 (by decide) (by decide)⟩

/-- C2: in `pawn_bug_position` the white e2 pawn (first-move flag still
set) is allowed to "capture" the black pawn on f4 — a forward move of two
rows and one column — because `Pawn.move_legal` bounds only the column
offset of a move onto an occupied square; the engine accepts the move.
This contradicts the claim that |Δcolumn| = 1 with |Δrow| ≥ 2 is illegal. -/
theorem claim2_pawn_diagonal_bug :
    (Pawn.move_legal ⟨PieceKind.pawn, Color.white, true⟩ (101, 2) (102, 4)
        (Board.get_current_piece_on_square pawn_bug_position.board)).1 = true
    ∧ Board.get_current_piece_on_square pawn_bug_position.board (102, 4)
        = some ⟨PieceKind.pawn, Color.black, false⟩
    ∧ Board.get_current_piece_on_square pawn_bug_position.board (101, 2)
        = some ⟨PieceKind.pawn, Color.white, true⟩
    ∧ (pawn_bug_position.make_move (101, 2) (102, 4)).1 = true := by
  refine ⟨?_, ?_, ?_, ?_⟩ <;> decide

/-- C3: with an eligible White to move, `enter_fairy_piece('F', 'i1')` —
whose target square is outside the board, hence outside White's two home
ranks — returns `True`, removes the Falcon from White's reserve and flips
the turn, while placing nothing on any board square: the claimed rejection
with no state change does not happen, because the home-rank test checks
only the row and the board update is a no-op for an off-board key. -/
theorem claim3_entry_bug :
    fairy_bug_position.game_state = GState.unfinished
    ∧ fairy_bug_position.player_turn = 1
    ∧ major_count fairy_bug_position = 1
    ∧ (fairy_bug_position.enter_fairy_piece 'F' (105, 1)).1 = true
    ∧ (fairy_bug_position.enter_fairy_piece 'F' (105, 1)).2.white_fairy
        = [⟨PieceKind.hunter, Color.white, true⟩]
    ∧ (fairy_bug_position.enter_fairy_piece 'F' (105, 1)).2.player_turn = -1
    ∧ Board.get_current_piece_on_square
        (fairy_bug_position.enter_fairy_piece 'F' (105, 1)).2.board (105, 1) = none := by
  refine ⟨?_, ?_, ?_, ?_, ?_, ?_, ?_⟩ <;> decide

/-- C6: for the unobstructed straight move d1-d3, `Queen.move_legal`
returns `None` (the function falls off the end), not the boolean `True`
the claim and the method's docstring promise; the engine still accepts the
move because its rejection test is an identity comparison with `False`. -/
theorem claim6_queen_none :
    Queen.move_legal (100, 1) (100, 3)
        (Board.get_current_piece_on_square queen_only_board) = none
    ∧ Queen.move_legal (100, 1) (100, 3)
        (Board.get_current_piece_on_square queen_game_position.board) = none
    ∧ (queen_game_position.make_move (100, 1) (100, 3)).1 = true := by
  refine ⟨?_, ?_, ?_⟩ <;> decide

/-- C7 (counterexample): `King.move_legal` applied to the null move
e1-e1 returns `True`, not `False` as the claim states. -/
theorem claim7_counterexample : King.move_legal (101, 1) (101, 1) = true := by decide

/-- C7 (amended): `King.move_legal` returns `True` exactly when
|Δrow| ≤ 1 and |Δcolumn| ≤ 1 — including the null move; the null move is
instead rejected by `make_move` itself (before any piece dispatch), which
returns `False` and leaves the state unchanged whenever start = goal. -/
theorem claim7_king_move :
    (∀ s g : Square, King.move_legal s g = true
      ↔ ((g.1 - s.1).natAbs ≤ 1 ∧ (g.2 - s.2).natAbs ≤ 1))
    ∧ (∀ (st : ChessVar) (s : Square), st.make_move s s = (false, st)) := by
  constructor
  · intro s g
    unfold King.move_legal
    split <;> rename_i h
    · simp only [Bool.false_eq_true, false_iff]
      omega
    · simp only [true_iff]
      omega
  · intro st s
    by_cases h1 : st.game_state ≠ GState.unfinished
    · simp [ChessVar.make_move, h1]
    · simp [ChessVar.make_move, h1]

/-! Walk lemmas for the obstruction loops: each loop reaches an
unobstructed goal (returning `some false`) and reports the first occupant
strictly before the goal (returning `some true`). -/

lemma straight_walk_up_go_reach (c gr : Int) (occ : Occ) (hg8 : gr ≤ 8) :
    ∀ (k : Nat) (fuel : Nat) (r : Int), gr = r + k → k < fuel →
      (∀ j : Int, r ≤ j → j < gr → occ (c, j) = none) →
      straight_walk_up_go c (c, gr) occ fuel r = some false := by
  intro k
  induction k with
  | zero =>
    intro fuel r hr hf _
    cases fuel with
    | zero => omega
    | succ f =>
      obtain rfl : r = gr := by omega
      simp [straight_walk_up_go, hg8]
  | succ k ih =>
    intro fuel r hr hf hocc
    cases fuel with
    | zero => omega
    | succ f =>
      have hr8 : r ≤ 8 := by omega
      have hrg : ((c, r) : Square) ≠ (c, gr) := by
        intro h
        injection h with h1 h2
        omega
      have h0 : occ (c, r) = none := hocc r le_rfl (by omega)
      simp only [straight_walk_up_go, if_pos hr8, if_neg hrg, h0,
        Option.isSome_none, Bool.false_eq_true, if_false]
      exact ih f (r + 1) (by omega) (by omega) (fun j hj1 hj2 => hocc j (by omega) hj2)

lemma straight_walk_up_go_hit (c gr rm : Int) (occ : Occ) (pm : Piece)
    (hmg : rm < gr) (hm8 : rm ≤ 8) (hm : occ (c, rm) = some pm) :
    ∀ (k : Nat) (fuel : Nat) (r : Int), rm = r + k → k < fuel →
      (∀ j : Int, r ≤ j → j < rm → occ (c, j) = none) →
      straight_walk_up_go c (c, gr) occ fuel r = some true := by
  intro k
  induction k with
  | zero =>
    intro fuel r hr hf _
    cases fuel with
    | zero => omega
    | succ f =>
      obtain rfl : r = rm := by omega
      have hrg : ((c, r) : Square) ≠ (c, gr) := by
        intro h
        injection h with h1 h2
        omega
      simp [straight_walk_up_go, hm8, hrg, hm]
  | succ k ih =>
    intro fuel r hr hf hocc
    cases fuel with
    | zero => omega
    | succ f =>
      have hr8 : r ≤ 8 := by omega
      have hrg : ((c, r) : Square) ≠ (c, gr) := by
        intro h
        injection h with h1 h2
        omega
      have h0 : occ (c, r) = none := hocc r le_rfl (by omega)
      simp only [straight_walk_up_go, if_pos hr8, if_neg hrg, h0,
        Option.isSome_none, Bool.false_eq_true, if_false]
      exact ih f (r + 1) (by omega) (by omega) (fun j hj1 hj2 => hocc j (by omega) hj2)

lemma straight_walk_up_reach (c gr r : Int) (occ : Occ) (hg8 : gr ≤ 8) (hle : r ≤ gr)
    (hocc : ∀ j : Int, r ≤ j → j < gr → occ (c, j) = none) :
    straight_walk_up c (c, gr) occ r = some false :=
  straight_walk_up_go_reach c gr occ hg8 (gr - r).toNat _ r (by omega) (by omega) hocc

lemma straight_walk_up_hit (c gr rm r : Int) (occ : Occ) (pm : Piece)
    (hmg : rm < gr) (hm8 : rm ≤ 8) (hm : occ (c, rm) = some pm) (hle : r ≤ rm)
    (hocc : ∀ j : Int, r ≤ j → j < rm → occ (c, j) = none) :
    straight_walk_up c (c, gr) occ r = some true :=
  straight_walk_up_go_hit c gr rm occ pm hmg hm8 hm (rm - r).toNat _ r (by omega)
    (by omega) hocc

lemma straight_walk_down_go_reach (c gr : Int) (occ : Occ) (hg1 : 1 ≤ gr) :
    ∀ (k : Nat) (fuel : Nat) (r : Int), r = gr + k → k < fuel →
      (∀ j : Int, j ≤ r → gr < j → occ (c, j) = none) →
      straight_walk_down_go c (c, gr) occ fuel r = some false := by
  intro k
  induction k with
  | zero =>
    intro fuel r hr hf _
    cases fuel with
    | zero => omega
    | succ f =>
      obtain rfl : r = gr := by omega
      simp [straight_walk_down_go, hg1]
  | succ k ih =>
    intro fuel r hr hf hocc
    cases fuel with
    | zero => omega
    | succ f =>
      have hr1 : 1 ≤ r := by omega
      have hrg : ((c, r) : Square) ≠ (c, gr) := by
        intro h
        injection h with h1 h2
        omega
      have h0 : occ (c, r) = none := hocc r le_rfl (by omega)
      simp only [straight_walk_down_go, if_pos hr1, if_neg hrg, h0,
        Option.isSome_none, Bool.false_eq_true, if_false]
      exact ih f (r - 1) (by omega) (by omega) (fun j hj1 hj2 => hocc j (by omega) hj2)

lemma straight_walk_down_go_hit (c gr rm : Int) (occ : Occ) (pm : Piece)
    (hmg : gr < rm) (hm1 : 1 ≤ rm) (hm : occ (c, rm) = some pm) :
    ∀ (k : Nat) (fuel : Nat) (r : Int), r = rm + k → k < fuel →
      (∀ j : Int, j ≤ r → rm < j → occ (c, j) = none) →
      straight_walk_down_go c (c, gr) occ fuel r = some true := by
  intro k
  induction k with
  | zero =>
    intro fuel r hr hf _
    cases fuel with
    | zero => omega
    | succ f =>
      obtain rfl : r = rm := by omega
      have hrg : ((c, r) : Square) ≠ (c, gr) := by
        intro h
        injection h with h1 h2
        omega
      simp [straight_walk_down_go, hm1, hrg, hm]
  | succ k ih =>
    intro fuel r hr hf hocc
    cases fuel with
    | zero => omega
    | succ f =>
      have hr1 : 1 ≤ r := by omega
      have hrg : ((c, r) : Square) ≠ (c, gr) := by
        intro h
        injection h with h1 h2
        omega
      have h0 : occ (c, r) = none := hocc r le_rfl (by omega)
      simp only [straight_walk_down_go, if_pos hr1, if_neg hrg, h0,
        Option.isSome_none, Bool.false_eq_true, if_false]
      exact ih f (r - 1) (by omega) (by omega) (fun j hj1 hj2 => hocc j (by omega) hj2)

lemma straight_walk_down_reach (c gr r : Int) (occ : Occ) (hg1 : 1 ≤ gr) (hle : gr ≤ r)
    (hocc : ∀ j : Int, j ≤ r → gr < j → occ (c, j) = none) :
    straight_walk_down c (c, gr) occ r = some false :=
  straight_walk_down_go_reach c gr occ hg1 (r - gr).toNat _ r (by omega) (by omega) hocc

lemma straight_walk_down_hit (c gr rm r : Int) (occ : Occ) (pm : Piece)
    (hmg : gr < rm) (hm1 : 1 ≤ rm) (hm : occ (c, rm) = some pm) (hle : rm ≤ r)
    (hocc : ∀ j : Int, j ≤ r → rm < j → occ (c, j) = none) :
    straight_walk_down c (c, gr) occ r = some true :=
  straight_walk_down_go_hit c gr rm occ pm hmg hm1 hm (r - rm).toNat _ r (by omega)
    (by omega) hocc

lemma straight_walk_left_go_reach (r gc : Int) (occ : Occ) (hg97 : 97 ≤ gc) :
    ∀ (k : Nat) (fuel : Nat) (c : Int), c = gc + k → k < fuel →
      (∀ j : Int, j ≤ c → gc < j → occ (j, r) = none) →
      straight_walk_left_go r (gc, r) occ fuel c = some false := by
  intro k
  induction k with
  | zero =>
    intro fuel c hc hf _
    cases fuel with
    | zero => omega
    | succ f =>
      obtain rfl : c = gc := by omega
      simp [straight_walk_left_go, hg97]
  | succ k ih =>
    intro fuel c hc hf hocc
    cases fuel with
    | zero => omega
    | succ f =>
      have hc97 : 97 ≤ c := by omega
      have hcg : ((c, r) : Square) ≠ (gc, r) := by
        intro h
        injection h with h1 h2
        omega
      have h0 : occ (c, r) = none := hocc c le_rfl (by omega)
      simp only [straight_walk_left_go, if_pos hc97, if_neg hcg, h0,
        Option.isSome_none, Bool.false_eq_true, if_false]
      exact ih f (c - 1) (by omega) (by omega) (fun j hj1 hj2 => hocc j (by omega) hj2)

lemma straight_walk_left_go_hit (r gc cm : Int) (occ : Occ) (pm : Piece)
    (hmg : gc < cm) (hm97 : 97 ≤ cm) (hm : occ (cm, r) = some pm) :
    ∀ (k : Nat) (fuel : Nat) (c : Int), c = cm + k → k < fuel →
      (∀ j : Int, j ≤ c → cm < j → occ (j, r) = none) →
      straight_walk_left_go r (gc, r) occ fuel c = some true := by
  intro k
  induction k with
  | zero =>
    intro fuel c hc hf _
    cases fuel with
    | zero => omega
    | succ f =>
      obtain rfl : c = cm := by omega
      have hcg : ((c, r) : Square) ≠ (gc, r) := by
        intro h
        injection h with h1 h2
        omega
      simp [straight_walk_left_go, hm97, hcg, hm]
  | succ k ih =>
    intro fuel c hc hf hocc
    cases fuel with
    | zero => omega
    | succ f =>
      have hc97 : 97 ≤ c := by omega
      have hcg : ((c, r) : Square) ≠ (gc, r) := by
        intro h
        injection h with h1 h2
        omega
      have h0 : occ (c, r) = none := hocc c le_rfl (by omega)
      simp only [straight_walk_left_go, if_pos hc97, if_neg hcg, h0,
        Option.isSome_none, Bool.false_eq_true, if_false]
      exact ih f (c - 1) (by omega) (by omega) (fun j hj1 hj2 => hocc j (by omega) hj2)

lemma straight_walk_left_reach (r gc c : Int) (occ : Occ) (hg97 : 97 ≤ gc) (hle : gc ≤ c)
    (hocc : ∀ j : Int, j ≤ c → gc < j → occ (j, r) = none) :
    straight_walk_left r (gc, r) occ c = some false :=
  straight_walk_left_go_reach r gc occ hg97 (c - gc).toNat _ c (by omega) (by omega) hocc

lemma straight_walk_left_hit (r gc cm c : Int) (occ : Occ) (pm : Piece)
    (hmg : gc < cm) (hm97 : 97 ≤ cm) (hm : occ (cm, r) = some pm) (hle : cm ≤ c)
    (hocc : ∀ j : Int, j ≤ c → cm < j → occ (j, r) = none) :
    straight_walk_left r (gc, r) occ c = some true :=
  straight_walk_left_go_hit r gc cm occ pm hmg hm97 hm (c - cm).toNat _ c (by omega)
    (by omega) hocc

lemma straight_walk_right_go_reach (r gc : Int) (occ : Occ) (hg104 : gc ≤ 104) :
    ∀ (k : Nat) (fuel : Nat) (c : Int), gc = c + k → k < fuel →
      (∀ j : Int, c ≤ j → j < gc → occ (j, r) = none) →
      straight_walk_right_go r (gc, r) occ fuel c = some false := by
  intro k
  induction k with
  | zero =>
    intro fuel c hc hf _
    cases fuel with
    | zero => omega
    | succ f =>
      obtain rfl : c = gc := by omega
      simp [straight_walk_right_go, hg104]
  | succ k ih =>
    intro fuel c hc hf hocc
    cases fuel with
    | zero => omega
    | succ f =>
      have hc104 : c ≤ 104 := by omega
      have hcg : ((c, r) : Square) ≠ (gc, r) := by
        intro h
        injection h with h1 h2
        omega
      have h0 : occ (c, r) = none := hocc c le_rfl (by omega)
      simp only [straight_walk_right_go, if_pos hc104, if_neg hcg, h0,
        Option.isSome_none, Bool.false_eq_true, if_false]
      exact ih f (c + 1) (by omega) (by omega) (fun j hj1 hj2 => hocc j (by omega) hj2)

lemma straight_walk_right_go_hit (r gc cm : Int) (occ : Occ) (pm : Piece)
    (hmg : cm < gc) (hm104 : cm ≤ 104) (hm : occ (cm, r) = some pm) :
    ∀ (k : Nat) (fuel : Nat) (c : Int), cm = c + k → k < fuel →
      (∀ j : Int, c ≤ j → j < cm → occ (j, r) = none) →
      straight_walk_right_go r (gc, r) occ fuel c = some true := by
  intro k
  induction k with
  | zero =>
    intro fuel c hc hf _
    cases fuel with
    | zero => omega
    | succ f =>
      obtain rfl : c = cm := by omega
      have hcg : ((c, r) : Square) ≠ (gc, r) := by
        intro h
        injection h with h1 h2
        omega
      simp [straight_walk_right_go, hm104, hcg, hm]
  | succ k ih =>
    intro fuel c hc hf hocc
    cases fuel with
    | zero => omega
    | succ f =>
      have hc104 : c ≤ 104 := by omega
      have hcg : ((c, r) : Square) ≠ (gc, r) := by
        intro h
        injection h with h1 h2
        omega
      have h0 : occ (c, r) = none := hocc c le_rfl (by omega)
      simp only [straight_walk_right_go, if_pos hc104, if_neg hcg, h0,
        Option.isSome_none, Bool.false_eq_true, if_false]
      exact ih f (c + 1) (by omega) (by omega) (fun j hj1 hj2 => hocc j (by omega) hj2)

lemma straight_walk_right_reach (r gc c : Int) (occ : Occ) (hg104 : gc ≤ 104) (hle : c ≤ gc)
    (hocc : ∀ j : Int, c ≤ j → j < gc → occ (j, r) = none) :
    straight_walk_right r (gc, r) occ c = some false :=
  straight_walk_right_go_reach r gc occ hg104 (gc - c).toNat _ c (by omega) (by omega) hocc

lemma straight_walk_right_hit (r gc cm c : Int) (occ : Occ) (pm : Piece)
    (hmg : cm < gc) (hm104 : cm ≤ 104) (hm : occ (cm, r) = some pm) (hle : c ≤ cm)
    (hocc : ∀ j : Int, c ≤ j → j < cm → occ (j, r) = none) :
    straight_walk_right r (gc, r) occ c = some true :=
  straight_walk_right_go_hit r gc cm occ pm hmg hm104 hm (cm - c).toNat _ c (by omega)
    (by omega) hocc

lemma diag_walk_ur_go_reach (gc gr : Int) (occ : Occ) (hg8 : gr ≤ 8) :
    ∀ (k : Nat) (fuel : Nat) (c r : Int), gc = c + k → gr = r + k → k < fuel →
      (∀ j : Int, 0 < j → j ≤ (k : Int) → occ (gc - j, gr - j) = none) →
      diag_walk_ur_go (gc, gr) occ fuel c r = some false := by
  intro k
  induction k with
  | zero =>
    intro fuel c r hc hr hf _
    cases fuel with
    | zero => omega
    | succ f =>
      obtain rfl : c = gc := by omega
      obtain rfl : r = gr := by omega
      simp [diag_walk_ur_go, hg8]
  | succ k ih =>
    intro fuel c r hc hr hf hocc
    cases fuel with
    | zero => omega
    | succ f =>
      have hcond : r ≤ 8 ∨ c ≤ 104 := Or.inl (by omega)
      have hrg : ((c, r) : Square) ≠ (gc, gr) := by
        intro h
        injection h with h1 h2
        omega
      have h0 : occ (c, r) = none := by
        have h := hocc ((k : Int) + 1) (by omega) (by omega)
        have e1 : gc - ((k : Int) + 1) = c := by omega
        have e2 : gr - ((k : Int) + 1) = r := by omega
        rwa [e1, e2] at h
      simp only [diag_walk_ur_go, if_pos hcond, if_neg hrg, h0,
        Option.isSome_none, Bool.false_eq_true, if_false]
      exact ih f (c + 1) (r + 1) (by omega) (by omega) (by omega)
        (fun j hj1 hj2 => hocc j hj1 (by omega))

lemma diag_walk_ur_go_hit (gc gr cm rm : Int) (occ : Occ) (pm : Piece)
    (hmg : rm < gr) (hm8 : rm ≤ 8) (hm : occ (cm, rm) = some pm) :
    ∀ (k : Nat) (fuel : Nat) (c r : Int), cm = c + k → rm = r + k → k < fuel →
      (∀ j : Int, 0 < j → j ≤ (k : Int) → occ (cm - j, rm - j) = none) →
      diag_walk_ur_go (gc, gr) occ fuel c r = some true := by
  intro k
  induction k with
  | zero =>
    intro fuel c r hc hr hf _
    cases fuel with
    | zero => omega
    | succ f =>
      obtain rfl : c = cm := by omega
      obtain rfl : r = rm := by omega
      have hcond : r ≤ 8 ∨ c ≤ 104 := Or.inl (by omega)
      have hrg : ((c, r) : Square) ≠ (gc, gr) := by
        intro h
        injection h with h1 h2
        omega
      simp [diag_walk_ur_go, hcond, hrg, hm]
  | succ k ih =>
    intro fuel c r hc hr hf hocc
    cases fuel with
    | zero => omega
    | succ f =>
      have hcond : r ≤ 8 ∨ c ≤ 104 := Or.inl (by omega)
      have hrg : ((c, r) : Square) ≠ (gc, gr) := by
        intro h
        injection h with h1 h2
        omega
      have h0 : occ (c, r) = none := by
        have h := hocc ((k : Int) + 1) (by omega) (by omega)
        have e1 : cm - ((k : Int) + 1) = c := by omega
        have e2 : rm - ((k : Int) + 1) = r := by omega
        rwa [e1, e2] at h
      simp only [diag_walk_ur_go, if_pos hcond, if_neg hrg, h0,
        Option.isSome_none, Bool.false_eq_true, if_false]
      exact ih f (c + 1) (r + 1) (by omega) (by omega) (by omega)
        (fun j hj1 hj2 => hocc j hj1 (by omega))

lemma diag_walk_ur_reach (gc gr c r : Int) (occ : Occ) (hg8 : gr ≤ 8)
    (hck : gc - c = gr - r) (hle : r ≤ gr)
    (hocc : ∀ j : Int, 0 < j → j ≤ gr - r → occ (gc - j, gr - j) = none) :
    diag_walk_ur (gc, gr) occ c r = some false := by
  unfold diag_walk_ur
  refine diag_walk_ur_go_reach gc gr occ hg8 (gr - r).toNat _ c r (by omega) (by omega)
    (Nat.lt_of_lt_of_le (by omega) (Nat.le_max_left _ _)) ?_
  intro j hj1 hj2
  exact hocc j hj1 (by omega)

lemma diag_walk_ur_hit (gc gr cm rm c r : Int) (occ : Occ) (pm : Piece)
    (hmg : rm < gr) (hm8 : rm ≤ 8) (hm : occ (cm, rm) = some pm)
    (hck : cm - c = rm - r) (hle : r ≤ rm)
    (hocc : ∀ j : Int, 0 < j → j ≤ rm - r → occ (cm - j, rm - j) = none) :
    diag_walk_ur (gc, gr) occ c r = some true := by
  unfold diag_walk_ur
  refine diag_walk_ur_go_hit gc gr cm rm occ pm hmg hm8 hm (rm - r).toNat _ c r
    (by omega) (by omega)
    (Nat.lt_of_lt_of_le (by omega) (Nat.le_max_left _ _)) ?_
  intro j hj1 hj2
  exact hocc j hj1 (by omega)

lemma diag_walk_dr_go_reach (gc gr : Int) (occ : Occ) (hg1 : 1 ≤ gr) :
    ∀ (k : Nat) (fuel : Nat) (c r : Int), gc = c + k → r = gr + k → k < fuel →
      (∀ j : Int, 0 < j → j ≤ (k : Int) → occ (gc - j, gr + j) = none) →
      diag_walk_dr_go (gc, gr) occ fuel c r = some false := by
  intro k
  induction k with
  | zero =>
    intro fuel c r hc hr hf _
    cases fuel with
    | zero => omega
    | succ f =>
      obtain rfl : c = gc := by omega
      obtain rfl : r = gr := by omega
      simp [diag_walk_dr_go, hg1]
  | succ k ih =>
    intro fuel c r hc hr hf hocc
    cases fuel with
    | zero => omega
    | succ f =>
      have hcond : 1 ≤ r ∨ c ≤ 104 := Or.inl (by omega)
      have hrg : ((c, r) : Square) ≠ (gc, gr) := by
        intro h
        injection h with h1 h2
        omega
      have h0 : occ (c, r) = none := by
        have h := hocc ((k : Int) + 1) (by omega) (by omega)
        have e1 : gc - ((k : Int) + 1) = c := by omega
        have e2 : gr + ((k : Int) + 1) = r := by omega
        rwa [e1, e2] at h
      simp only [diag_walk_dr_go, if_pos hcond, if_neg hrg, h0,
        Option.isSome_none, Bool.false_eq_true, if_false]
      exact ih f (c + 1) (r - 1) (by omega) (by omega) (by omega)
        (fun j hj1 hj2 => hocc j hj1 (by omega))

lemma diag_walk_dr_go_hit (gc gr cm rm : Int) (occ : Occ) (pm : Piece)
    (hmg : gr < rm) (hm1 : 1 ≤ rm) (hm : occ (cm, rm) = some pm) :
    ∀ (k : Nat) (fuel : Nat) (c r : Int), cm = c + k → r = rm + k → k < fuel →
      (∀ j : Int, 0 < j → j ≤ (k : Int) → occ (cm - j, rm + j) = none) →
      diag_walk_dr_go (gc, gr) occ fuel c r = some true := by
  intro k
  induction k with
  | zero =>
    intro fuel c r hc hr hf _
    cases fuel with
    | zero => omega
    | succ f =>
      obtain rfl : c = cm := by omega
      obtain rfl : r = rm := by omega
      have hcond : 1 ≤ r ∨ c ≤ 104 := Or.inl (by omega)
      have hrg : ((c, r) : Square) ≠ (gc, gr) := by
        intro h
        injection h with h1 h2
        omega
      simp [diag_walk_dr_go, hcond, hrg, hm]
  | succ k ih =>
    intro fuel c r hc hr hf hocc
    cases fuel with
    | zero => omega
    | succ f =>
      have hcond : 1 ≤ r ∨ c ≤ 104 := Or.inl (by omega)
      have hrg : ((c, r) : Square) ≠ (gc, gr) := by
        intro h
        injection h with h1 h2
        omega
      have h0 : occ (c, r) = none := by
        have h := hocc ((k : Int) + 1) (by omega) (by omega)
        have e1 : cm - ((k : Int) + 1) = c := by omega
        have e2 : rm + ((k : Int) + 1) = r := by omega
        rwa [e1, e2] at h
      simp only [diag_walk_dr_go, if_pos hcond, if_neg hrg, h0,
        Option.isSome_none, Bool.false_eq_true, if_false]
      exact ih f (c + 1) (r - 1) (by omega) (by omega) (by omega)
        (fun j hj1 hj2 => hocc j hj1 (by omega))

lemma diag_walk_dr_reach (gc gr c r : Int) (occ : Occ) (hg1 : 1 ≤ gr)
    (hck : gc - c = r - gr) (hle : gr ≤ r)
    (hocc : ∀ j : Int, 0 < j → j ≤ r - gr → occ (gc - j, gr + j) = none) :
    diag_walk_dr (gc, gr) occ c r = some false := by
  unfold diag_walk_dr
  refine diag_walk_dr_go_reach gc gr occ hg1 (r - gr).toNat _ c r (by omega) (by omega)
    (Nat.lt_of_lt_of_le (by omega) (Nat.le_max_left _ _)) ?_
  intro j hj1 hj2
  exact hocc j hj1 (by omega)

lemma diag_walk_dr_hit (gc gr cm rm c r : Int) (occ : Occ) (pm : Piece)
    (hmg : gr < rm) (hm1 : 1 ≤ rm) (hm : occ (cm, rm) = some pm)
    (hck : cm - c = r - rm) (hle : rm ≤ r)
    (hocc : ∀ j : Int, 0 < j → j ≤ r - rm → occ (cm - j, rm + j) = none) :
    diag_walk_dr (gc, gr) occ c r = some true := by
  unfold diag_walk_dr
  refine diag_walk_dr_go_hit gc gr cm rm occ pm hmg hm1 hm (r - rm).toNat _ c r
    (by omega) (by omega)
    (Nat.lt_of_lt_of_le (by omega) (Nat.le_max_left _ _)) ?_
  intro j hj1 hj2
  exact hocc j hj1 (by omega)

lemma diag_walk_ul_go_reach (gc gr : Int) (occ : Occ) (hg8 : gr ≤ 8) :
    ∀ (k : Nat) (fuel : Nat) (c r : Int), c = gc + k → gr = r + k → k < fuel →
      (∀ j : Int, 0 < j → j ≤ (k : Int) → occ (gc + j, gr - j) = none) →
      diag_walk_ul_go (gc, gr) occ fuel c r = some false := by
  intro k
  induction k with
  | zero =>
    intro fuel c r hc hr hf _
    cases fuel with
    | zero => omega
    | succ f =>
      obtain rfl : c = gc := by omega
      obtain rfl : r = gr := by omega
      simp [diag_walk_ul_go, hg8]
  | succ k ih =>
    intro fuel c r hc hr hf hocc
    cases fuel with
    | zero => omega
    | succ f =>
      have hcond : r ≤ 8 ∨ 97 ≤ c := Or.inl (by omega)
      have hrg : ((c, r) : Square) ≠ (gc, gr) := by
        intro h
        injection h with h1 h2
        omega
      have h0 : occ (c, r) = none := by
        have h := hocc ((k : Int) + 1) (by omega) (by omega)
        have e1 : gc + ((k : Int) + 1) = c := by omega
        have e2 : gr - ((k : Int) + 1) = r := by omega
        rwa [e1, e2] at h
      simp only [diag_walk_ul_go, if_pos hcond, if_neg hrg, h0,
        Option.isSome_none, Bool.false_eq_true, if_false]
      exact ih f (c - 1) (r + 1) (by omega) (by omega) (by omega)
        (fun j hj1 hj2 => hocc j hj1 (by omega))

lemma diag_walk_ul_go_hit (gc gr cm rm : Int) (occ : Occ) (pm : Piece)
    (hmg : rm < gr) (hm8 : rm ≤ 8) (hm : occ (cm, rm) = some pm) :
    ∀ (k : Nat) (fuel : Nat) (c r : Int), c = cm + k → rm = r + k → k < fuel →
      (∀ j : Int, 0 < j → j ≤ (k : Int) → occ (cm + j, rm - j) = none) →
      diag_walk_ul_go (gc, gr) occ fuel c r = some true := by
  intro k
  induction k with
  | zero =>
    intro fuel c r hc hr hf _
    cases fuel with
    | zero => omega
    | succ f =>
      obtain rfl : c = cm := by omega
      obtain rfl : r = rm := by omega
      have hcond : r ≤ 8 ∨ 97 ≤ c := Or.inl (by omega)
      have hrg : ((c, r) : Square) ≠ (gc, gr) := by
        intro h
        injection h with h1 h2
        omega
      simp [diag_walk_ul_go, hcond, hrg, hm]
  | succ k ih =>
    intro fuel c r hc hr hf hocc
    cases fuel with
    | zero => omega
    | succ f =>
      have hcond : r ≤ 8 ∨ 97 ≤ c := Or.inl (by omega)
      have hrg : ((c, r) : Square) ≠ (gc, gr) := by
        intro h
        injection h with h1 h2
        omega
      have h0 : occ (c, r) = none := by
        have h := hocc ((k : Int) + 1) (by omega) (by omega)
        have e1 : cm + ((k : Int) + 1) = c := by omega
        have e2 : rm - ((k : Int) + 1) = r := by omega
        rwa [e1, e2] at h
      simp only [diag_walk_ul_go, if_pos hcond, if_neg hrg, h0,
        Option.isSome_none, Bool.false_eq_true, if_false]
      exact ih f (c - 1) (r + 1) (by omega) (by omega) (by omega)
        (fun j hj1 hj2 => hocc j hj1 (by omega))

lemma diag_walk_ul_reach (gc gr c r : Int) (occ : Occ) (hg8 : gr ≤ 8)
    (hck : c - gc = gr - r) (hle : r ≤ gr)
    (hocc : ∀ j : Int, 0 < j → j ≤ gr - r → occ (gc + j, gr - j) = none) :
    diag_walk_ul (gc, gr) occ c r = some false := by
  unfold diag_walk_ul
  refine diag_walk_ul_go_reach gc gr occ hg8 (gr - r).toNat _ c r (by omega) (by omega)
    (Nat.lt_of_lt_of_le (by omega) (Nat.le_max_left _ _)) ?_
  intro j hj1 hj2
  exact hocc j hj1 (by omega)

lemma diag_walk_ul_hit (gc gr cm rm c r : Int) (occ : Occ) (pm : Piece)
    (hmg : rm < gr) (hm8 : rm ≤ 8) (hm : occ (cm, rm) = some pm)
    (hck : c - cm = rm - r) (hle : r ≤ rm)
    (hocc : ∀ j : Int, 0 < j → j ≤ rm - r → occ (cm + j, rm - j) = none) :
    diag_walk_ul (gc, gr) occ c r = some true := by
  unfold diag_walk_ul
  refine diag_walk_ul_go_hit gc gr cm rm occ pm hmg hm8 hm (rm - r).toNat _ c r
    (by omega) (by omega)
    (Nat.lt_of_lt_of_le (by omega) (Nat.le_max_left _ _)) ?_
  intro j hj1 hj2
  exact hocc j hj1 (by omega)

lemma diag_walk_dl_go_reach (gc gr : Int) (occ : Occ) (hg1 : 1 ≤ gr) :
    ∀ (k : Nat) (fuel : Nat) (c r : Int), c = gc + k → r = gr + k → k < fuel →
      (∀ j : Int, 0 < j → j ≤ (k : Int) → occ (gc + j, gr + j) = none) →
      diag_walk_dl_go (gc, gr) occ fuel c r = some false := by
  intro k
  induction k with
  | zero =>
    intro fuel c r hc hr hf _
    cases fuel with
    | zero => omega
    | succ f =>
      obtain rfl : c = gc := by omega
      obtain rfl : r = gr := by omega
      simp [diag_walk_dl_go, hg1]
  | succ k ih =>
    intro fuel c r hc hr hf hocc
    cases fuel with
    | zero => omega
    | succ f =>
      have hcond : 1 ≤ r ∨ 97 ≤ c := Or.inl (by omega)
      have hrg : ((c, r) : Square) ≠ (gc, gr) := by
        intro h
        injection h with h1 h2
        omega
      have h0 : occ (c, r) = none := by
        have h := hocc ((k : Int) + 1) (by omega) (by omega)
        have e1 : gc + ((k : Int) + 1) = c := by omega
        have e2 : gr + ((k : Int) + 1) = r := by omega
        rwa [e1, e2] at h
      simp only [diag_walk_dl_go, if_pos hcond, if_neg hrg, h0,
        Option.isSome_none, Bool.false_eq_true, if_false]
      exact ih f (c - 1) (r - 1) (by omega) (by omega) (by omega)
        (fun j hj1 hj2 => hocc j hj1 (by omega))

lemma diag_walk_dl_go_hit (gc gr cm rm : Int) (occ : Occ) (pm : Piece)
    (hmg : gr < rm) (hm1 : 1 ≤ rm) (hm : occ (cm, rm) = some pm) :
    ∀ (k : Nat) (fuel : Nat) (c r : Int), c = cm + k → r = rm + k → k < fuel →
      (∀ j : Int, 0 < j → j ≤ (k : Int) → occ (cm + j, rm + j) = none) →
      diag_walk_dl_go (gc, gr) occ fuel c r = some true := by
  intro k
  induction k with
  | zero =>
    intro fuel c r hc hr hf _
    cases fuel with
    | zero => omega
    | succ f =>
      obtain rfl : c = cm := by omega
      obtain rfl : r = rm := by omega
      have hcond : 1 ≤ r ∨ 97 ≤ c := Or.inl (by omega)
      have hrg : ((c, r) : Square) ≠ (gc, gr) := by
        intro h
        injection h with h1 h2
        omega
      simp [diag_walk_dl_go, hcond, hrg, hm]
  | succ k ih =>
    intro fuel c r hc hr hf hocc
    cases fuel with
    | zero => omega
    | succ f =>
      have hcond : 1 ≤ r ∨ 97 ≤ c := Or.inl (by omega)
      have hrg : ((c, r) : Square) ≠ (gc, gr) := by
        intro h
        injection h with h1 h2
        omega
      have h0 : occ (c, r) = none := by
        have h := hocc ((k : Int) + 1) (by omega) (by omega)
        have e1 : cm + ((k : Int) + 1) = c := by omega
        have e2 : rm + ((k : Int) + 1) = r := by omega
        rwa [e1, e2] at h
      simp only [diag_walk_dl_go, if_pos hcond, if_neg hrg, h0,
        Option.isSome_none, Bool.false_eq_true, if_false]
      exact ih f (c - 1) (r - 1) (by omega) (by omega) (by omega)
        (fun j hj1 hj2 => hocc j hj1 (by omega))

lemma diag_walk_dl_reach (gc gr c r : Int) (occ : Occ) (hg1 : 1 ≤ gr)
    (hck : c - gc = r - gr) (hle : gr ≤ r)
    (hocc : ∀ j : Int, 0 < j → j ≤ r - gr → occ (gc + j, gr + j) = none) :
    diag_walk_dl (gc, gr) occ c r = some false := by
  unfold diag_walk_dl
  refine diag_walk_dl_go_reach gc gr occ hg1 (r - gr).toNat _ c r (by omega) (by omega)
    (Nat.lt_of_lt_of_le (by omega) (Nat.le_max_left _ _)) ?_
  intro j hj1 hj2
  exact hocc j hj1 (by omega)

lemma diag_walk_dl_hit (gc gr cm rm c r : Int) (occ : Occ) (pm : Piece)
    (hmg : gr < rm) (hm1 : 1 ≤ rm) (hm : occ (cm, rm) = some pm)
    (hck : c - cm = r - rm) (hle : rm ≤ r)
    (hocc : ∀ j : Int, 0 < j → j ≤ r - rm → occ (cm + j, rm + j) = none) :
    diag_walk_dl (gc, gr) occ c r = some true := by
  unfold diag_walk_dl
  refine diag_walk_dl_go_hit gc gr cm rm occ pm hmg hm1 hm (r - rm).toNat _ c r
    (by omega) (by omega)
    (Nat.lt_of_lt_of_le (by omega) (Nat.le_max_left _ _)) ?_
  intro j hj1 hj2
  exact hocc j hj1 (by omega)

lemma between_straight_symm {s g m : Square} (h : strictly_between_straight s g m) :
    strictly_between_straight g s m := by
  unfold strictly_between_straight at h ⊢
  tauto

lemma between_diag_symm {s g m : Square} (h : strictly_between_diag s g m) :
    strictly_between_diag g s m := by
  obtain ⟨sc, sr⟩ := s
  obtain ⟨gc, gr⟩ := g
  obtain ⟨j, hj, hq⟩ := h
  rcases hq with ⟨h1, h2, h3, h4, rfl⟩ | ⟨h1, h2, h3, h4, rfl⟩ |
    ⟨h1, h2, h3, h4, rfl⟩ | ⟨h1, h2, h3, h4, rfl⟩
  · exact ⟨gr - sr - j, by omega, Or.inr (Or.inr (Or.inr
      ⟨by omega, by omega, by omega, by omega, by simp only [Prod.mk.injEq]; omega⟩))⟩
  · exact ⟨sr - gr - j, by omega, Or.inr (Or.inr (Or.inl
      ⟨by omega, by omega, by omega, by omega, by simp only [Prod.mk.injEq]; omega⟩))⟩
  · exact ⟨gr - sr - j, by omega, Or.inr (Or.inl
      ⟨by omega, by omega, by omega, by omega, by simp only [Prod.mk.injEq]; omega⟩)⟩
  · exact ⟨sr - gr - j, by omega, Or.inl
      ⟨by omega, by omega, by omega, by omega, by simp only [Prod.mk.injEq]; omega⟩⟩

lemma straight_jump_clear (sc sr gc gr : Int) (occ : Occ)
    (hs : 97 ≤ sc ∧ sc ≤ 104 ∧ 1 ≤ sr ∧ sr ≤ 8)
    (hg : 97 ≤ gc ∧ gc ≤ 104 ∧ 1 ≤ gr ∧ gr ≤ 8)
    (hclear : ∀ x : Square, x ≠ (sc, sr) → x ≠ (gc, gr) → occ x = none)
    (halign : sc = gc ∧ sr ≠ gr ∨ sr = gr ∧ sc ≠ gc) :
    straight_move_requires_jump (sc, sr) (gc, gr) occ = some false := by
  rcases halign with ⟨rfl, hne⟩ | ⟨rfl, hne⟩
  · rcases lt_or_gt_of_ne hne with hlt | hlt
    · have hw : straight_walk_up sc (sc, gr) occ (sr + 1) = some false := by
        refine straight_walk_up_reach sc gr (sr + 1) occ (by omega) (by omega) ?_
        intro j hj1 hj2
        refine hclear (sc, j) ?_ ?_ <;>
          (intro h; injection h with h1 h2; omega)
      simp only [straight_move_requires_jump]
      rw [if_pos (show ((sc, gr) : Square).2 > ((sc, sr) : Square).2 by
        simp only; omega), hw]
    · have hw : straight_walk_down sc (sc, gr) occ (sr - 1) = some false := by
        refine straight_walk_down_reach sc gr (sr - 1) occ (by omega) (by omega) ?_
        intro j hj1 hj2
        refine hclear (sc, j) ?_ ?_ <;>
          (intro h; injection h with h1 h2; omega)
      simp only [straight_move_requires_jump]
      rw [if_neg (show ¬ ((sc, gr) : Square).2 > ((sc, sr) : Square).2 by
        simp only; omega)]
      rw [if_pos (show ((sc, gr) : Square).2 < ((sc, sr) : Square).2 by
        simp only; omega), hw]
  · rcases lt_or_gt_of_ne hne with hlt | hlt
    · have hw : straight_walk_right sr (gc, sr) occ (sc + 1) = some false := by
        refine straight_walk_right_reach sr gc (sc + 1) occ (by omega) (by omega) ?_
        intro j hj1 hj2
        refine hclear (j, sr) ?_ ?_ <;>
          (intro h; injection h with h1 h2; omega)
      simp only [straight_move_requires_jump]
      rw [if_neg (show ¬ ((gc, sr) : Square).2 > ((sc, sr) : Square).2 by
        simp only; omega)]
      rw [if_neg (show ¬ ((gc, sr) : Square).2 < ((sc, sr) : Square).2 by
        simp only; omega)]
      rw [if_neg (show ¬ ((gc, sr) : Square).1 < ((sc, sr) : Square).1 by
        simp only; omega)]
      rw [if_pos (show ((gc, sr) : Square).1 > ((sc, sr) : Square).1 by
        simp only; omega), hw]
    · have hw : straight_walk_left sr (gc, sr) occ (sc - 1) = some false := by
        refine straight_walk_left_reach sr gc (sc - 1) occ (by omega) (by omega) ?_
        intro j hj1 hj2
        refine hclear (j, sr) ?_ ?_ <;>
          (intro h; injection h with h1 h2; omega)
      simp only [straight_move_requires_jump]
      rw [if_neg (show ¬ ((gc, sr) : Square).2 > ((sc, sr) : Square).2 by
        simp only; omega)]
      rw [if_neg (show ¬ ((gc, sr) : Square).2 < ((sc, sr) : Square).2 by
        simp only; omega)]
      rw [if_pos (show ((gc, sr) : Square).1 < ((sc, sr) : Square).1 by
        simp only; omega), hw]

lemma straight_jump_blocked (sc sr gc gr mc mr : Int) (occ : Occ) (pm : Piece)
    (hs : 97 ≤ sc ∧ sc ≤ 104 ∧ 1 ≤ sr ∧ sr ≤ 8)
    (hg : 97 ≤ gc ∧ gc ≤ 104 ∧ 1 ≤ gr ∧ gr ≤ 8)
    (hm : occ (mc, mr) = some pm)
    (hclear : ∀ x : Square, x ≠ (sc, sr) → x ≠ (gc, gr) → x ≠ (mc, mr) → occ x = none)
    (hbet : strictly_between_straight (sc, sr) (gc, gr) (mc, mr)) :
    straight_move_requires_jump (sc, sr) (gc, gr) occ = some true := by
  rcases hbet with ⟨he1, he2, hord⟩ | ⟨he1, he2, hord⟩ <;> simp only at he1 he2
  · obtain rfl : sc = mc := he1.symm
    obtain rfl : sc = gc := he2
    rcases hord with ⟨h1, h2⟩ | ⟨h1, h2⟩
    · have hw : straight_walk_up sc (sc, gr) occ (sr + 1) = some true := by
        refine straight_walk_up_hit sc gr mr (sr + 1) occ pm (by omega) (by omega) hm
          (by omega) ?_
        intro j hj1 hj2
        refine hclear (sc, j) ?_ ?_ ?_ <;>
          (intro h; injection h with ha hb; omega)
      simp only [straight_move_requires_jump]
      rw [if_pos (show ((sc, gr) : Square).2 > ((sc, sr) : Square).2 by
        simp only; omega), hw]
    · have hw : straight_walk_down sc (sc, gr) occ (sr - 1) = some true := by
        refine straight_walk_down_hit sc gr mr (sr - 1) occ pm (by omega) (by omega) hm
          (by omega) ?_
        intro j hj1 hj2
        refine hclear (sc, j) ?_ ?_ ?_ <;>
          (intro h; injection h with ha hb; omega)
      simp only [straight_move_requires_jump]
      rw [if_neg (show ¬ ((sc, gr) : Square).2 > ((sc, sr) : Square).2 by
        simp only; omega)]
      rw [if_pos (show ((sc, gr) : Square).2 < ((sc, sr) : Square).2 by
        simp only; omega), hw]
  · obtain rfl : sr = mr := he1.symm
    obtain rfl : sr = gr := he2
    rcases hord with ⟨h1, h2⟩ | ⟨h1, h2⟩
    · have hw : straight_walk_right sr (gc, sr) occ (sc + 1) = some true := by
        refine straight_walk_right_hit sr gc mc (sc + 1) occ pm (by omega) (by omega) hm
          (by omega) ?_
        intro j hj1 hj2
        refine hclear (j, sr) ?_ ?_ ?_ <;>
          (intro h; injection h with ha hb; omega)
      simp only [straight_move_requires_jump]
      rw [if_neg (show ¬ ((gc, sr) : Square).2 > ((sc, sr) : Square).2 by
        simp only; omega)]
      rw [if_neg (show ¬ ((gc, sr) : Square).2 < ((sc, sr) : Square).2 by
        simp only; omega)]
      rw [if_neg (show ¬ ((gc, sr) : Square).1 < ((sc, sr) : Square).1 by
        simp only; omega)]
      rw [if_pos (show ((gc, sr) : Square).1 > ((sc, sr) : Square).1 by
        simp only; omega), hw]
    · have hw : straight_walk_left sr (gc, sr) occ (sc - 1) = some true := by
        refine straight_walk_left_hit sr gc mc (sc - 1) occ pm (by omega) (by omega) hm
          (by omega) ?_
        intro j hj1 hj2
        refine hclear (j, sr) ?_ ?_ ?_ <;>
          (intro h; injection h with ha hb; omega)
      simp only [straight_move_requires_jump]
      rw [if_neg (show ¬ ((gc, sr) : Square).2 > ((sc, sr) : Square).2 by
        simp only; omega)]
      rw [if_neg (show ¬ ((gc, sr) : Square).2 < ((sc, sr) : Square).2 by
        simp only; omega)]
      rw [if_pos (show ((gc, sr) : Square).1 < ((sc, sr) : Square).1 by
        simp only; omega), hw]

lemma diag_jump_clear (sc sr gc gr : Int) (occ : Occ)
    (hs : 97 ≤ sc ∧ sc ≤ 104 ∧ 1 ≤ sr ∧ sr ≤ 8)
    (hg : 97 ≤ gc ∧ gc ≤ 104 ∧ 1 ≤ gr ∧ gr ≤ 8)
    (hclear : ∀ x : Square, x ≠ (sc, sr) → x ≠ (gc, gr) → occ x = none)
    (hdiag : (gc - sc).natAbs = (gr - sr).natAbs) (hner : sr ≠ gr) :
    diagonal_move_requires_jump (sc, sr) (gc, gr) occ = some false := by
  have hnec : sc ≠ gc := by omega
  rcases lt_or_gt_of_ne hnec with hc | hc <;> rcases lt_or_gt_of_ne hner with hr | hr
  · have hw : diag_walk_ur (gc, gr) occ (sc + 1) (sr + 1) = some false := by
      refine diag_walk_ur_reach gc gr (sc + 1) (sr + 1) occ (by omega) (by omega)
        (by omega) ?_
      intro j hj1 hj2
      refine hclear (gc - j, gr - j) ?_ ?_ <;>
        (intro h; injection h with ha hb; omega)
    simp only [diagonal_move_requires_jump]
    rw [if_pos (show ((gc, gr) : Square).2 > ((sc, sr) : Square).2
        ∧ ((gc, gr) : Square).1 > ((sc, sr) : Square).1 by simp only; omega)]
    exact hw
  · have hw : diag_walk_dr (gc, gr) occ (sc + 1) (sr - 1) = some false := by
      refine diag_walk_dr_reach gc gr (sc + 1) (sr - 1) occ (by omega) (by omega)
        (by omega) ?_
      intro j hj1 hj2
      refine hclear (gc - j, gr + j) ?_ ?_ <;>
        (intro h; injection h with ha hb; omega)
    simp only [diagonal_move_requires_jump]
    rw [if_neg (show ¬(((gc, gr) : Square).2 > ((sc, sr) : Square).2
        ∧ ((gc, gr) : Square).1 > ((sc, sr) : Square).1) by simp only; omega)]
    rw [if_pos (show ((gc, gr) : Square).2 < ((sc, sr) : Square).2
        ∧ ((gc, gr) : Square).1 > ((sc, sr) : Square).1 by simp only; omega)]
    exact hw
  · have hw : diag_walk_ul (gc, gr) occ (sc - 1) (sr + 1) = some false := by
      refine diag_walk_ul_reach gc gr (sc - 1) (sr + 1) occ (by omega) (by omega)
        (by omega) ?_
      intro j hj1 hj2
      refine hclear (gc + j, gr - j) ?_ ?_ <;>
        (intro h; injection h with ha hb; omega)
    simp only [diagonal_move_requires_jump]
    rw [if_neg (show ¬(((gc, gr) : Square).2 > ((sc, sr) : Square).2
        ∧ ((gc, gr) : Square).1 > ((sc, sr) : Square).1) by simp only; omega)]
    rw [if_neg (show ¬(((gc, gr) : Square).2 < ((sc, sr) : Square).2
        ∧ ((gc, gr) : Square).1 > ((sc, sr) : Square).1) by simp only; omega)]
    rw [if_pos (show ((gc, gr) : Square).2 > ((sc, sr) : Square).2
        ∧ ((gc, gr) : Square).1 < ((sc, sr) : Square).1 by simp only; omega)]
    exact hw
  · have hw : diag_walk_dl (gc, gr) occ (sc - 1) (sr - 1) = some false := by
      refine diag_walk_dl_reach gc gr (sc - 1) (sr - 1) occ (by omega) (by omega)
        (by omega) ?_
      intro j hj1 hj2
      refine hclear (gc + j, gr + j) ?_ ?_ <;>
        (intro h; injection h with ha hb; omega)
    simp only [diagonal_move_requires_jump]
    rw [if_neg (show ¬(((gc, gr) : Square).2 > ((sc, sr) : Square).2
        ∧ ((gc, gr) : Square).1 > ((sc, sr) : Square).1) by simp only; omega)]
    rw [if_neg (show ¬(((gc, gr) : Square).2 < ((sc, sr) : Square).2
        ∧ ((gc, gr) : Square).1 > ((sc, sr) : Square).1) by simp only; omega)]
    rw [if_neg (show ¬(((gc, gr) : Square).2 > ((sc, sr) : Square).2
        ∧ ((gc, gr) : Square).1 < ((sc, sr) : Square).1) by simp only; omega)]
    rw [if_pos (show ((gc, gr) : Square).2 < ((sc, sr) : Square).2
        ∧ ((gc, gr) : Square).1 < ((sc, sr) : Square).1 by simp only; omega)]
    exact hw

lemma diag_jump_blocked (sc sr gc gr : Int) (m : Square) (occ : Occ) (pm : Piece)
    (hs : 97 ≤ sc ∧ sc ≤ 104 ∧ 1 ≤ sr ∧ sr ≤ 8)
    (hg : 97 ≤ gc ∧ gc ≤ 104 ∧ 1 ≤ gr ∧ gr ≤ 8)
    (hm : occ m = some pm)
    (hclear : ∀ x : Square, x ≠ (sc, sr) → x ≠ (gc, gr) → x ≠ m → occ x = none)
    (hbet : strictly_between_diag (sc, sr) (gc, gr) m) :
    diagonal_move_requires_jump (sc, sr) (gc, gr) occ = some true := by
  obtain ⟨j, hj, hq⟩ := hbet
  rcases hq with ⟨h1, h2, h3, h4, rfl⟩ | ⟨h1, h2, h3, h4, rfl⟩ |
    ⟨h1, h2, h3, h4, rfl⟩ | ⟨h1, h2, h3, h4, rfl⟩ <;> simp only at h1 h2 h3 h4 hm
  · have hw : diag_walk_ur (gc, gr) occ (sc + 1) (sr + 1) = some true := by
      refine diag_walk_ur_hit gc gr (sc + j) (sr + j) (sc + 1) (sr + 1) occ pm
        (by omega) (by omega) hm (by omega) (by omega) ?_
      intro i hi1 hi2
      refine hclear (sc + j - i, sr + j - i) ?_ ?_ ?_ <;>
        (intro h; injection h with ha hb; omega)
    simp only [diagonal_move_requires_jump]
    rw [if_pos (show ((gc, gr) : Square).2 > ((sc, sr) : Square).2
        ∧ ((gc, gr) : Square).1 > ((sc, sr) : Square).1 by simp only; omega)]
    exact hw
  · have hw : diag_walk_dr (gc, gr) occ (sc + 1) (sr - 1) = some true := by
      refine diag_walk_dr_hit gc gr (sc + j) (sr - j) (sc + 1) (sr - 1) occ pm
        (by omega) (by omega) hm (by omega) (by omega) ?_
      intro i hi1 hi2
      refine hclear (sc + j - i, sr - j + i) ?_ ?_ ?_ <;>
        (intro h; injection h with ha hb; omega)
    simp only [diagonal_move_requires_jump]
    rw [if_neg (show ¬(((gc, gr) : Square).2 > ((sc, sr) : Square).2
        ∧ ((gc, gr) : Square).1 > ((sc, sr) : Square).1) by simp only; omega)]
    rw [if_pos (show ((gc, gr) : Square).2 < ((sc, sr) : Square).2
        ∧ ((gc, gr) : Square).1 > ((sc, sr) : Square).1 by simp only; omega)]
    exact hw
  · have hw : diag_walk_ul (gc, gr) occ (sc - 1) (sr + 1) = some true := by
      refine diag_walk_ul_hit gc gr (sc - j) (sr + j) (sc - 1) (sr + 1) occ pm
        (by omega) (by omega) hm (by omega) (by omega) ?_
      intro i hi1 hi2
      refine hclear (sc - j + i, sr + j - i) ?_ ?_ ?_ <;>
        (intro h; injection h with ha hb; omega)
    simp only [diagonal_move_requires_jump]
    rw [if_neg (show ¬(((gc, gr) : Square).2 > ((sc, sr) : Square).2
        ∧ ((gc, gr) : Square).1 > ((sc, sr) : Square).1) by simp only; omega)]
    rw [if_neg (show ¬(((gc, gr) : Square).2 < ((sc, sr) : Square).2
        ∧ ((gc, gr) : Square).1 > ((sc, sr) : Square).1) by simp only; omega)]
    rw [if_pos (show ((gc, gr) : Square).2 > ((sc, sr) : Square).2
        ∧ ((gc, gr) : Square).1 < ((sc, sr) : Square).1 by simp only; omega)]
    exact hw
  · have hw : diag_walk_dl (gc, gr) occ (sc - 1) (sr - 1) = some true := by
      refine diag_walk_dl_hit gc gr (sc - j) (sr - j) (sc - 1) (sr - 1) occ pm
        (by omega) (by omega) hm (by omega) (by omega) ?_
      intro i hi1 hi2
      refine hclear (sc - j + i, sr - j + i) ?_ ?_ ?_ <;>
        (intro h; injection h with ha hb; omega)
    simp only [diagonal_move_requires_jump]
    rw [if_neg (show ¬(((gc, gr) : Square).2 > ((sc, sr) : Square).2
        ∧ ((gc, gr) : Square).1 > ((sc, sr) : Square).1) by simp only; omega)]
    rw [if_neg (show ¬(((gc, gr) : Square).2 < ((sc, sr) : Square).2
        ∧ ((gc, gr) : Square).1 > ((sc, sr) : Square).1) by simp only; omega)]
    rw [if_neg (show ¬(((gc, gr) : Square).2 > ((sc, sr) : Square).2
        ∧ ((gc, gr) : Square).1 < ((sc, sr) : Square).1) by simp only; omega)]
    rw [if_pos (show ((gc, gr) : Square).2 < ((sc, sr) : Square).2
        ∧ ((gc, gr) : Square).1 < ((sc, sr) : Square).1 by simp only; omega)]
    exact hw

/-- C9: for two on-board squares on a shared rank, file, or diagonal with
pieces at most at the two endpoints, the matching jump-check reports no
jump in either traversal direction; adding any third piece strictly
between them makes the check report a jump, again in both directions. -/
theorem claim9_obstruction_symmetry (s g : Square) (hs : onBoard s = true)
    (hg : onBoard g = true) (hne : s ≠ g) :
    (∀ occ : Occ, (∀ x : Square, x ≠ s → x ≠ g → occ x = none) →
      ((s.1 = g.1 ∨ s.2 = g.2) →
        straight_move_requires_jump s g occ = some false
        ∧ straight_move_requires_jump g s occ = some false)
      ∧ ((g.1 - s.1).natAbs = (g.2 - s.2).natAbs →
        diagonal_move_requires_jump s g occ = some false
        ∧ diagonal_move_requires_jump g s occ = some false))
    ∧ (∀ (occ : Occ) (m : Square) (pm : Piece), occ m = some pm →
        (∀ x : Square, x ≠ s → x ≠ g → x ≠ m → occ x = none) →
        (strictly_between_straight s g m →
          straight_move_requires_jump s g occ = some true
          ∧ straight_move_requires_jump g s occ = some true)
        ∧ (strictly_between_diag s g m →
          diagonal_move_requires_jump s g occ = some true
          ∧ diagonal_move_requires_jump g s occ = some true)) := by
  obtain ⟨sc, sr⟩ := s
  obtain ⟨gc, gr⟩ := g
  simp only [onBoard, decide_eq_true_eq] at hs hg
  have hne2 : ¬(sc = gc ∧ sr = gr) := by
    rintro ⟨h1, h2⟩
    exact hne (by rw [h1, h2])
  constructor
  · intro occ hclear
    constructor
    · intro halign
      simp only at halign
      have halign2 : sc = gc ∧ sr ≠ gr ∨ sr = gr ∧ sc ≠ gc := by
        rcases halign with h | h
        · exact Or.inl ⟨h, fun hr => hne2 ⟨h, hr⟩⟩
        · exact Or.inr ⟨h, fun hc => hne2 ⟨hc, h⟩⟩
      refine ⟨straight_jump_clear sc sr gc gr occ hs hg hclear halign2,
        straight_jump_clear gc gr sc sr occ hg hs (fun x h1 h2 => hclear x h2 h1) ?_⟩
      rcases halign2 with ⟨h1, h2⟩ | ⟨h1, h2⟩
      · exact Or.inl ⟨h1.symm, fun h => h2 h.symm⟩
      · exact Or.inr ⟨h1.symm, fun h => h2 h.symm⟩
    · intro hdiag
      simp only at hdiag
      have hner : sr ≠ gr := by omega
      exact ⟨diag_jump_clear sc sr gc gr occ hs hg hclear hdiag hner,
        diag_jump_clear gc gr sc sr occ hg hs (fun x h1 h2 => hclear x h2 h1)
          (by omega) (by omega)⟩
  · intro occ m pm hm hclear
    constructor
    · intro hbet
      obtain ⟨mc, mr⟩ := m
      exact ⟨straight_jump_blocked sc sr gc gr mc mr occ pm hs hg hm hclear hbet,
        straight_jump_blocked gc gr sc sr mc mr occ pm hg hs hm
          (fun x h1 h2 h3 => hclear x h2 h1 h3) (between_straight_symm hbet)⟩
    · intro hbet
      exact ⟨diag_jump_blocked sc sr gc gr m occ pm hs hg hm hclear hbet,
        diag_jump_blocked gc gr sc sr m occ pm hg hs hm
          (fun x h1 h2 h3 => hclear x h2 h1 h3) (between_diag_symm hbet)⟩

/-- C9 (witness): instantiated at the file segment a1-a4 (clear, then
blocked by a pawn on a2) and at the diagonal a1-d4. -/
theorem claim9_witness :
    straight_move_requires_jump (97, 1) (97, 4) occ_empty = some false
    ∧ straight_move_requires_jump (97, 1) (97, 4) occ_one = some true
    ∧ diagonal_move_requires_jump (97, 1) (100, 4) occ_empty = some false :=
  ⟨(((claim9_obstruction_symmetry (97, 1) (97, 4) (by decide) (by decide) (by decide)).1
      occ_empty (fun x h1 h2 => rfl)).1 (Or.inl rfl)).1,
   (((claim9_obstruction_symmetry (97, 1) (97, 4) (by decide) (by decide) (by decide)).2
      occ_one (97, 2) ⟨PieceKind.pawn, Color.white, true⟩ (by decide)
      (fun x h1 h2 h3 => by simp [occ_one, h3])).1
      (Or.inl ⟨rfl, rfl, Or.inl (by constructor <;> decide)⟩)).1,
   (((claim9_obstruction_symmetry (97, 1) (100, 4) (by decide) (by decide) (by decide)).1
      occ_empty (fun x h1 h2 => rfl)).2 (by decide)).1⟩
